import Mathlib

/-!
Verification development for the meta-repo-seed structure parser, validator
and synchronizer (src/src/structure_parser/{models,parser,validators}.py and
src/src/meta_repo_seed/structure_sync.py).

Modelling conventions (shallow embedding of the Python code):
* a Python `str` is a `List Char` (`PyStr`);
* a parsed JSON document is a `Json` value; Python dicts are association
  lists in insertion order with unique keys (the shape `json.loads` yields);
* Python exceptions are the inductive `Exn`; code that can raise is modelled
  in `Except Exn`;
* the dynamic behaviour of the Python operators used by the source
  (`x in c`, `c[k]`, `d.get`, truthiness, `str.split`, `str.replace`,
  `str.startswith`, `.copy()`) is modelled by the `py*` helpers below,
  including the `TypeError`/`AttributeError` they raise on ill-typed
  operands, so that the error behaviour of the source is preserved.
-/

set_option maxHeartbeats 1000000
set_option synthInstance.maxHeartbeats 400000

/-- A Python string, modelled as its list of characters. -/
abbrev PyStr := List Char

/-- View a Lean string literal as a Python string. -/
def pys (s : String) : PyStr := s.toList

/-- The ASCII apostrophe character, used inside several source messages. -/
def apos : PyStr := [Char.ofNat 39]

/-- JSON values: the shape of parsed structure.json documents.  Python dicts
are association lists in insertion order; `json.loads` produces unique keys. -/
inductive Json where
  | null : Json
  | bool : Bool → Json
  | num : Int → Json
  | str : PyStr → Json
  | arr : List Json → Json
  | obj : List (PyStr × Json) → Json

/-- Python exceptions raised by the modelled code.  `validationError` is
`structure_parser.exceptions.ValidationError` (message plus the list of
rendered error strings); `migrationError` is `MigrationError`, carrying the
source version value and the target version whose rendering makes up the
Python message text. -/
inductive Exn where
  | typeError : Exn
  | attributeError : Exn
  | keyError : Exn
  | validationError : PyStr → List PyStr → Exn
  | migrationError : Json → PyStr → Exn

/-- Python `==` between a JSON value and a string: true exactly for an equal
string (Python cross-type equality with `str` is `False`). -/
def jsonEqStr (j : Json) (s : PyStr) : Bool :=
  match j with
  | .str s' => s' == s
  | _ => false

/-- First binding of a key in a Python dict (keys are unique in Python, so
this is the binding). -/
def lookupKey {α : Type} (k : PyStr) : List (PyStr × α) → Option α
  | [] => none
  | (k', v) :: rest => if k' = k then some v else lookupKey k rest

/-- Substring test on Python strings (`needle in haystack`). -/
def pySubstr (needle hay : PyStr) : Bool :=
  (List.range (hay.length + 1)).any (fun i => needle.isPrefixOf (hay.drop i))

/-- Python `needle in c` for a string needle: key test on dicts, substring
test on strings, membership on lists; `TypeError` on scalars. -/
def pyIn (needle : PyStr) : Json → Except Exn Bool
  | .obj kvs => .ok (kvs.any (fun kv => kv.1 == needle))
  | .str s => .ok (pySubstr needle s)
  | .arr xs => .ok (xs.any (fun x => jsonEqStr x needle))
  | _ => .error .typeError

/-- Python `c[key]` for a string key: dict lookup (KeyError when absent);
`TypeError` on strings, lists and scalars (string/list indices must be
integers). -/
def pyGetItem (j : Json) (k : PyStr) : Except Exn Json :=
  match j with
  | .obj kvs =>
    match lookupKey k kvs with
    | some v => .ok v
    | none => .error .keyError
  | _ => .error .typeError

/-- Python `d.get(key, default)`; only dicts have `.get`
(`AttributeError` otherwise). -/
def pyGet (j : Json) (k : PyStr) (default : Json) : Except Exn Json :=
  match j with
  | .obj kvs => .ok ((lookupKey k kvs).getD default)
  | _ => .error .attributeError

/-- Python truthiness of a JSON value. -/
def pyTruthy : Json → Bool
  | .null => false
  | .bool b => b
  | .num n => n != 0
  | .str s => !s.isEmpty
  | .arr l => !l.isEmpty
  | .obj l => !l.isEmpty

/-- Python `isinstance(x, str)`. -/
def isStr : Json → Bool
  | .str _ => true
  | _ => false

/-- Python `isinstance(x, dict)`. -/
def isDict : Json → Bool
  | .obj _ => true
  | _ => false

/-- Python `x.copy()`: defined for lists and dicts (a shallow copy, which in
this pure model is the value itself); `AttributeError` on strings and
scalars. -/
def pyCopy : Json → Except Exn Json
  | .arr l => .ok (.arr l)
  | .obj l => .ok (.obj l)
  | _ => .error .attributeError

/-- Python `x.startswith(p)`: defined on strings only. -/
def pyStartswith (j : Json) (p : PyStr) : Except Exn Bool :=
  match j with
  | .str s => .ok (p.isPrefixOf s)
  | _ => .error .attributeError

/-! ## models.py -/

/-- models.ValidationError: a single validation error (or warning) entry. -/
structure Models.ValidationError where
  message : PyStr
  path : PyStr
  error_code : PyStr
  line_number : Option Int
  column : Option Int
deriving DecidableEq

/-- models.ValidationError.__str__:
`f"{error_code}: {message}{location}{line_info}"` where `location` is
`f" at {path}"` when `path` is truthy and `line_info` is
`f" (line {line_number})"` when `line_number` is truthy (both `None` and `0`
are falsy). -/
def Models.ValidationError.toStr (e : Models.ValidationError) : PyStr :=
  let location := if e.path ≠ [] then pys " at " ++ e.path else []
  let line_info :=
    match e.line_number with
    | some n => if n ≠ 0 then pys " (line " ++ (toString n).toList ++ pys ")" else []
    | none => []
  e.error_code ++ pys ": " ++ e.message ++ location ++ line_info

/-- models.ValidationResult. -/
structure ValidationResult where
  is_valid : Bool
  errors : List Models.ValidationError
  warnings : List Models.ValidationError
  schema_version : Json

/-- `ValidationResult(is_valid=b)`: the dataclass constructor with default
empty collections and `schema_version=None`. -/
def ValidationResult.fresh (b : Bool) : ValidationResult :=
  ⟨b, [], [], Json.null⟩

/-- models.ValidationResult.add_error: append the entry and set
`is_valid = False`. -/
def ValidationResult.add_error (r : ValidationResult) (message path error_code : PyStr)
    (line_number : Option Int) : ValidationResult :=
  { r with
    errors := r.errors ++ [⟨message, path, error_code, line_number, none⟩],
    is_valid := false }

/-- models.ValidationResult.add_warning: append the entry; `is_valid` is not
touched. -/
def ValidationResult.add_warning (r : ValidationResult) (message path error_code : PyStr)
    (line_number : Option Int) : ValidationResult :=
  { r with warnings := r.warnings ++ [⟨message, path, error_code, line_number, none⟩] }

/-- models.ValidationResult.error_count: `len(self.errors)` (a property,
recomputed on every access). -/
def ValidationResult.error_count (r : ValidationResult) : Nat :=
  r.errors.length

/-- models.ValidationResult.warning_count: `len(self.warnings)`. -/
def ValidationResult.warning_count (r : ValidationResult) : Nat :=
  r.warnings.length

/-- models.StructureData.  The dataclass stores whatever JSON values
`from_dict` hands it (Python performs no coercion), so every field is a
`Json` value; `description`/`updated_date`/`template_path` hold
`Json.null` for Python `None`.  The Lean keyword `structure` forces the
`structure` field to be spelled `structure_`. -/
structure StructureData where
  project_name : Json
  github_username : Json
  created_date : Json
  version : Json
  schema_version : Json
  structure_ : Json
  description : Json
  updated_date : Json
  template_path : Json
  tags : Json

/-- models.StructureData.from_dict: create StructureData from parsed JSON
data; v2 documents (with a `metadata` key) read the metadata fields from the
nested object (with `schema_version` defaulting to `"2.0.0"`), v1 documents
read them from the root (with `schema_version` fixed to `"1.0"`).  Missing
string fields default to `""`, `tags` to `[]`, the optional fields to
`None`. -/
def StructureData.from_dict (data : Json) : Except Exn StructureData := do
  let hasMeta ← pyIn (pys "metadata") data
  if hasMeta then
    let metadata ← pyGetItem data (pys "metadata")
    let pn ← pyGet metadata (pys "project_name") (Json.str [])
    let gu ← pyGet metadata (pys "github_username") (Json.str [])
    let cd ← pyGet metadata (pys "created_date") (Json.str [])
    let ver ← pyGet metadata (pys "version") (Json.str [])
    let sv ← pyGet metadata (pys "schema_version") (Json.str (pys "2.0.0"))
    let st ← pyGet data (pys "structure") (Json.obj [])
    let desc ← pyGet metadata (pys "description") Json.null
    let ud ← pyGet metadata (pys "updated_date") Json.null
    let tp ← pyGet metadata (pys "template_path") Json.null
    let tags ← pyGet metadata (pys "tags") (Json.arr [])
    pure ⟨pn, gu, cd, ver, sv, st, desc, ud, tp, tags⟩
  else
    let pn ← pyGet data (pys "project_name") (Json.str [])
    let gu ← pyGet data (pys "github_username") (Json.str [])
    let cd ← pyGet data (pys "created_date") (Json.str [])
    let ver ← pyGet data (pys "version") (Json.str [])
    let st ← pyGet data (pys "structure") (Json.obj [])
    let desc ← pyGet data (pys "description") Json.null
    let ud ← pyGet data (pys "updated_date") Json.null
    let tp ← pyGet data (pys "template_path") Json.null
    let tags ← pyGet data (pys "tags") (Json.arr [])
    pure ⟨pn, gu, cd, ver, Json.str (pys "1.0"), st, desc, ud, tp, tags⟩

/-! ## Basic lemmas about the Python-operator models -/

theorem lookupKey_isSome_iff_any {α : Type} (k : PyStr) (kvs : List (PyStr × α)) :
    (lookupKey k kvs).isSome = kvs.any (fun kv => kv.1 == k) := by
  induction kvs with
  | nil => rfl
  | cons hd tl ih =>
    obtain ⟨k', v⟩ := hd
    rw [lookupKey, List.any_cons]
    by_cases h : k' = k
    · simp [h]
    · have hb : (k' == k) = false := beq_false_of_ne h
      simp only [h, if_false, hb, Bool.false_or, ih]

theorem pyIn_obj (needle : PyStr) (kvs : List (PyStr × Json)) :
    pyIn needle (Json.obj kvs) = .ok ((lookupKey needle kvs).isSome) := by
  simp [pyIn, lookupKey_isSome_iff_any]

@[simp]
theorem exOk_bind {ε α β : Type} (a : α) (f : α → Except ε β) :
    (Except.ok a : Except ε α) >>= f = f a := rfl

@[simp]
theorem exErr_bind {ε α β : Type} (e : ε) (f : α → Except ε β) :
    (Except.error e : Except ε α) >>= f = Except.error e := rfl

@[simp]
theorem exPure_bind {ε α β : Type} (a : α) (f : α → Except ε β) :
    (pure a : Except ε α) >>= f = f a := rfl

@[simp]
theorem exOk_map {ε α β : Type} (g : α → β) (a : α) :
    g <$> (Except.ok a : Except ε α) = Except.ok (g a) := rfl

@[simp]
theorem exErr_map {ε α β : Type} (g : α → β) (e : ε) :
    g <$> (Except.error e : Except ε α) = Except.error e := rfl

@[simp]
theorem exPure_map {ε α β : Type} (g : α → β) (a : α) :
    g <$> (pure a : Except ε α) = Except.ok (g a) := rfl

/-! ## C5: ValidationResult validity monotonicity -/

/-- A mutation of a `ValidationResult`: the two mutating operations the
class exposes (`add_error` / `add_warning`), with their argument values. -/
inductive VROp where
  | addError : PyStr → PyStr → PyStr → Option Int → VROp
  | addWarning : PyStr → PyStr → PyStr → Option Int → VROp

/-- Run one mutation on a result. -/
def applyOp (r : ValidationResult) : VROp → ValidationResult
  | .addError m p c ln => r.add_error m p c ln
  | .addWarning m p c ln => r.add_warning m p c ln

/-- Run a sequence of mutations on a result (the lifetime of the object). -/
def applyOps (r : ValidationResult) (ops : List VROp) : ValidationResult :=
  ops.foldl applyOp r

theorem applyOp_false_mono (r : ValidationResult) (op : VROp)
    (h : r.is_valid = false) : (applyOp r op).is_valid = false := by
  cases op with
  | addError m p c ln => rfl
  | addWarning m p c ln => exact h

theorem applyOps_false_mono (ops : List VROp) (r : ValidationResult)
    (h : r.is_valid = false) : (applyOps r ops).is_valid = false := by
  induction ops generalizing r with
  | nil => exact h
  | cons op rest ih => exact ih (applyOp r op) (applyOp_false_mono r op h)

/-- C5: validity monotonicity of `ValidationResult`.  `add_error` always sets
`is_valid` to `False`; `add_warning` never changes `is_valid`; once an
`add_error` occurs anywhere in a sequence of mutations the final `is_valid`
is `False` (no operation sets it back); and `error_count`/`warning_count`
always equal the current lengths of the `errors`/`warnings` lists. -/
theorem c5_validation_result_monotonicity (r : ValidationResult) (ops pre post : List VROp)
    (m p c : PyStr) (ln : Option Int) :
    ((r.add_error m p c ln).is_valid = false) ∧
    ((r.add_warning m p c ln).is_valid = r.is_valid) ∧
    (r.is_valid = false → (applyOps r ops).is_valid = false) ∧
    ((applyOps r (pre ++ VROp.addError m p c ln :: post)).is_valid = false) ∧
    ((applyOps r ops).error_count = (applyOps r ops).errors.length) ∧
    ((applyOps r ops).warning_count = (applyOps r ops).warnings.length) := by
  refine ⟨rfl, rfl, applyOps_false_mono ops r, ?_, rfl, rfl⟩
  have : applyOps r (pre ++ VROp.addError m p c ln :: post) =
      applyOps (applyOp (applyOps r pre) (VROp.addError m p c ln)) post := by
    simp [applyOps, List.foldl_append]
  rw [this]
  exact applyOps_false_mono post _ rfl

/-- Witness for C5 at a concrete result and operation sequence. -/
theorem c5_validation_result_monotonicity_witness :
    ((ValidationResult.fresh true).is_valid = false → False) ∧
    (((ValidationResult.fresh false).add_warning (pys "w") [] (pys "C") none).is_valid = false) ∧
    ((applyOps (ValidationResult.fresh true)
        ([] ++ VROp.addError (pys "e") [] (pys "C") none ::
          [VROp.addWarning (pys "w") [] (pys "C") none])).is_valid = false) := by
  have h := c5_validation_result_monotonicity (ValidationResult.fresh true)
    [VROp.addWarning (pys "w") [] (pys "C") none] []
    [VROp.addWarning (pys "w") [] (pys "C") none] (pys "e") [] (pys "C") none
  have h2 := c5_validation_result_monotonicity (ValidationResult.fresh false)
    [] [] [] (pys "w") [] (pys "C") none
  refine ⟨fun hc => ?_, ?_, h.2.2.2.1⟩
  · have := h.2.2.1 hc
    simp [applyOps, applyOp, ValidationResult.add_warning, ValidationResult.fresh] at hc
  · have := h2.2.1
    simp [ValidationResult.add_warning, ValidationResult.fresh] at this ⊢

/-! ## C10: StructureData.from_dict totality and silent defaults -/

/-- C10: `StructureData.from_dict` is total on well-shaped mappings and
applies silent defaults: for every dict whose `metadata` value, if present,
is itself a dict, it returns a `StructureData` without raising; missing
metadata string fields default to `""`; a document without a `metadata` key
gets `schema_version = "1.0"`; a document whose `metadata` lacks
`schema_version` gets `"2.0.0"`. -/
theorem c10_from_dict_total_with_defaults (kvs : List (PyStr × Json))
    (hm : lookupKey (pys "metadata") kvs = none ∨
          ∃ m, lookupKey (pys "metadata") kvs = some (Json.obj m)) :
    ∃ sd : StructureData, StructureData.from_dict (Json.obj kvs) = .ok sd ∧
      (lookupKey (pys "metadata") kvs = none →
        (sd.schema_version = Json.str (pys "1.0") ∧
         (lookupKey (pys "project_name") kvs = none → sd.project_name = Json.str []) ∧
         (lookupKey (pys "github_username") kvs = none → sd.github_username = Json.str []) ∧
         (lookupKey (pys "created_date") kvs = none → sd.created_date = Json.str []) ∧
         (lookupKey (pys "version") kvs = none → sd.version = Json.str []))) ∧
      (∀ m, lookupKey (pys "metadata") kvs = some (Json.obj m) →
        ((lookupKey (pys "schema_version") m = none → sd.schema_version = Json.str (pys "2.0.0")) ∧
         (lookupKey (pys "project_name") m = none → sd.project_name = Json.str []) ∧
         (lookupKey (pys "github_username") m = none → sd.github_username = Json.str []) ∧
         (lookupKey (pys "created_date") m = none → sd.created_date = Json.str []) ∧
         (lookupKey (pys "version") m = none → sd.version = Json.str []))) := by
  rcases hm with h | ⟨m, h⟩
  · have hIn : pyIn (pys "metadata") (Json.obj kvs) = .ok false := by
      rw [pyIn_obj, h]; rfl
    refine ⟨⟨(lookupKey (pys "project_name") kvs).getD (Json.str []),
        (lookupKey (pys "github_username") kvs).getD (Json.str []),
        (lookupKey (pys "created_date") kvs).getD (Json.str []),
        (lookupKey (pys "version") kvs).getD (Json.str []),
        Json.str (pys "1.0"),
        (lookupKey (pys "structure") kvs).getD (Json.obj []),
        (lookupKey (pys "description") kvs).getD Json.null,
        (lookupKey (pys "updated_date") kvs).getD Json.null,
        (lookupKey (pys "template_path") kvs).getD Json.null,
        (lookupKey (pys "tags") kvs).getD (Json.arr [])⟩, ?_, ?_, ?_⟩
    · simp [StructureData.from_dict, hIn, pyGet]
    · intro _
      refine ⟨rfl, fun hp => ?_, fun hp => ?_, fun hp => ?_, fun hp => ?_⟩ <;>
        simp [hp]
    · intro m hmm
      rw [h] at hmm
      exact Option.noConfusion hmm
  · have hIn : pyIn (pys "metadata") (Json.obj kvs) = .ok true := by
      rw [pyIn_obj, h]; rfl
    have hGI : pyGetItem (Json.obj kvs) (pys "metadata") = .ok (Json.obj m) := by
      simp [pyGetItem, h]
    refine ⟨⟨(lookupKey (pys "project_name") m).getD (Json.str []),
        (lookupKey (pys "github_username") m).getD (Json.str []),
        (lookupKey (pys "created_date") m).getD (Json.str []),
        (lookupKey (pys "version") m).getD (Json.str []),
        (lookupKey (pys "schema_version") m).getD (Json.str (pys "2.0.0")),
        (lookupKey (pys "structure") kvs).getD (Json.obj []),
        (lookupKey (pys "description") m).getD Json.null,
        (lookupKey (pys "updated_date") m).getD Json.null,
        (lookupKey (pys "template_path") m).getD Json.null,
        (lookupKey (pys "tags") m).getD (Json.arr [])⟩, ?_, ?_, ?_⟩
    · simp [StructureData.from_dict, hIn, hGI, pyGet]
    · intro hc
      rw [h] at hc
      exact Option.noConfusion hc
    · intro m' hmm
      rw [h] at hmm
      injection hmm with hmm'
      injection hmm' with hmm''
      subst hmm''
      refine ⟨fun hp => ?_, fun hp => ?_, fun hp => ?_, fun hp => ?_, fun hp => ?_⟩ <;>
        simp [hp]

/-- Witness for C10 at a concrete document (no `metadata` key, no name
fields): construction succeeds and the defaults appear. -/
theorem c10_from_dict_total_with_defaults_witness :
    ∃ sd : StructureData,
      StructureData.from_dict (Json.obj [(pys "structure", Json.obj [])]) = .ok sd ∧
      sd.schema_version = Json.str (pys "1.0") ∧ sd.project_name = Json.str [] := by
  obtain ⟨sd, h1, h2, _⟩ :=
    c10_from_dict_total_with_defaults [(pys "structure", Json.obj [])] (Or.inl rfl)
  obtain ⟨hsv, hpn, _⟩ := h2 rfl
  exact ⟨sd, h1, hsv, hpn rfl⟩

/-! ## validators.py -/

/-- Lift a raising Python operation into the validator's `try` block: an
exception carries the current (partially mutated) `ValidationResult` with it,
because Python mutates the result object in place. -/
def vtry {α : Type} (x : Except Exn α) (r : ValidationResult) :
    Except (Exn × ValidationResult) α :=
  match x with
  | .ok a => .ok a
  | .error e => .error (e, r)

/-- Core of `_is_valid_project_name`'s pattern `^[a-z0-9]+(-[a-z0-9]+)*$`:
nonempty groups of lowercase-ASCII/digit characters separated by single
hyphens. -/
def kebabCore (s : PyStr) : Bool :=
  (s.splitOn '-').all (fun g => !g.isEmpty && g.all (fun c => c.isLower || c.isDigit))

/-- Python `re.match` with a `$`-anchored pattern: matches the whole string,
or the whole string minus a single trailing newline (CPython `$`
semantics). -/
def pyMatchFull (core : PyStr → Bool) (s : PyStr) : Bool :=
  core s || (!s.isEmpty && s.getLast? == some (Char.ofNat 10) && core s.dropLast)

/-- validators.SchemaValidator._is_valid_project_name. -/
def isValidProjectName (name : PyStr) : Bool :=
  pyMatchFull kebabCore name

/-- `[a-zA-Z0-9]`. -/
def isAsciiAlnum (c : Char) : Bool :=
  c.isAlpha || c.isDigit

/-- Core of `_is_valid_github_username`'s pattern
`^[a-zA-Z0-9]([a-zA-Z0-9-]*[a-zA-Z0-9])?$`. -/
def githubCore (s : PyStr) : Bool :=
  match s with
  | [] => false
  | c :: rest =>
    isAsciiAlnum c &&
    (rest.isEmpty ||
      (rest.dropLast.all (fun x => isAsciiAlnum x || x == '-') &&
       (match rest.getLast? with
        | some l => isAsciiAlnum l
        | none => false)))

/-- validators.SchemaValidator._is_valid_github_username. -/
def isValidGithubUsername (u : PyStr) : Bool :=
  pyMatchFull githubCore u

/-- A semver numeric identifier: `0|[1-9]\d*`. -/
def semverNumId (g : PyStr) : Bool :=
  match g with
  | [] => false
  | [c] => c.isDigit
  | c :: rest => ('1' ≤ c && c ≤ '9') && rest.all Char.isDigit

/-- A semver prerelease identifier `0|[1-9]\d*|\d*[a-zA-Z-][0-9a-zA-Z-]*`:
a numeric identifier, or a nonempty alnum-or-hyphen string containing at
least one letter or hyphen. -/
def semverPreId (g : PyStr) : Bool :=
  semverNumId g ||
  (!g.isEmpty && g.all (fun c => isAsciiAlnum c || c == '-') &&
   g.any (fun c => c.isAlpha || c == '-'))

/-- A semver build identifier `[0-9a-zA-Z-]+`. -/
def semverBuildId (g : PyStr) : Bool :=
  !g.isEmpty && g.all (fun c => isAsciiAlnum c || c == '-')

/-- Split at the first occurrence of a character, when there is one. -/
def splitOnFirst (c : Char) : PyStr → Option (PyStr × PyStr)
  | [] => none
  | x :: rest =>
    if x = c then some ([], rest)
    else
      match splitOnFirst c rest with
      | some (a, b) => some (x :: a, b)
      | none => none

/-- Core of `_is_valid_version`'s semantic-versioning pattern
`^X.Y.Z(-pre(.pre)*)?(\x2bbuild(.build)*)?$`: the main part has no hyphen or
plus and prerelease identifiers have no plus, so splitting at the first plus
and then the first hyphen recovers the three regions. -/
def semverCore (s : PyStr) : Bool :=
  let afterPlus :=
    match splitOnFirst '+' s with
    | some (a, b) => (a, some b)
    | none => (s, none)
  let afterHyphen :=
    match splitOnFirst '-' afterPlus.1 with
    | some (a, b) => (a, some b)
    | none => (afterPlus.1, none)
  ((afterHyphen.1.splitOn '.').length == 3 &&
    (afterHyphen.1.splitOn '.').all semverNumId) &&
  (match afterHyphen.2 with
   | some p => (p.splitOn '.').all semverPreId
   | none => true) &&
  (match afterPlus.2 with
   | some b => (b.splitOn '.').all semverBuildId
   | none => true)

/-- validators.SchemaValidator._is_valid_version. -/
def isValidVersion (v : PyStr) : Bool :=
  pyMatchFull semverCore v

/-- validators.SchemaValidator._validate_meta_repo_structure: warnings for
missing recommended meta-repo sections, and for missing recommended
governance children when a dict-valued `governance` is present. -/
def validateMetaRepoStructure (meta_repo : Json) (r : ValidationResult) :
    Except (Exn × ValidationResult) ValidationResult := do
  let r ← [pys "governance", pys "automation", pys "documentation"].foldlM (fun r s => do
    let b ← vtry (pyIn s meta_repo) r
    pure (if b then r
      else r.add_warning (pys "Recommended section " ++ apos ++ s ++ apos ++
        pys " is missing from meta-repo") (pys "structure.meta-repo." ++ s)
        (pys "MISSING_RECOMMENDED_SECTION") none)) r
  let b ← vtry (pyIn (pys "governance") meta_repo) r
  if b then do
    let governance ← vtry (pyGetItem meta_repo (pys "governance")) r
    if isDict governance then
      [pys "structure", pys "policies", pys "processes"].foldlM (fun r s => do
        let b2 ← vtry (pyIn s governance) r
        pure (if b2 then r
          else r.add_warning (pys "Recommended governance section " ++ apos ++ s ++ apos ++
            pys " is missing") (pys "structure.meta-repo.governance." ++ s)
            (pys "MISSING_RECOMMENDED_SECTION") none)) r
    else
      pure r
  else
    pure r

/-- validators.SchemaValidator._validate_structure_completeness. -/
def validateStructureCompleteness (structure_ : Json) (r : ValidationResult) :
    Except (Exn × ValidationResult) ValidationResult := do
  let r ← [pys "meta-repo"].foldlM (fun r s => do
    let b ← vtry (pyIn s structure_) r
    pure (if b then r
      else r.add_error (pys "Required section " ++ apos ++ s ++ apos ++
        pys " is missing from structure") (pys "structure." ++ s)
        (pys "MISSING_REQUIRED_SECTION") none)) r
  let b ← vtry (pyIn (pys "meta-repo") structure_) r
  if b then do
    let meta_repo ← vtry (pyGetItem structure_ (pys "meta-repo")) r
    if isDict meta_repo = false then
      pure (r.add_error (pys "meta-repo section must be an object")
        (pys "structure.meta-repo") (pys "INVALID_TYPE") none)
    else
      validateMetaRepoStructure meta_repo r
  else
    pure r

/-- The project-name rule block of `_validate_custom_rules`: required
(error when falsy), kebab-case format (error when a present string fails the
pattern), `TypeError` escapes when the present value is not a string. -/
def vcrProjectName (data metadata : Json) (result : ValidationResult) :
    Except (Exn × ValidationResult) ValidationResult := do
  let project_name ← vtry (pyGet metadata (pys "project_name") (Json.str [])) result
  if pyTruthy project_name = false then do
    let hasMeta ← vtry (pyIn (pys "metadata") data) result
    let path := if hasMeta then pys "metadata.project_name" else pys "project_name"
    pure (result.add_error (pys "Project name is required") path (pys "MISSING_FIELD") none)
  else
    match project_name with
    | Json.str s =>
      if isValidProjectName s then pure result
      else do
        let hasMeta ← vtry (pyIn (pys "metadata") data) result
        let path := if hasMeta then pys "metadata.project_name" else pys "project_name"
        pure (result.add_error
          (pys "Project name should be lowercase with hyphens (kebab-case)") path
          (pys "INVALID_FORMAT") none)
    | _ => Except.error (Exn.typeError, result)

/-- The github-username rule block of `_validate_custom_rules`: required
(error when falsy), identifier format (warning when a present string fails
the pattern). -/
def vcrGithub (data metadata : Json) (r : ValidationResult) :
    Except (Exn × ValidationResult) ValidationResult := do
  let github_username ← vtry (pyGet metadata (pys "github_username") (Json.str [])) r
  if pyTruthy github_username = false then do
    let hasMeta ← vtry (pyIn (pys "metadata") data) r
    let path := if hasMeta then pys "metadata.github_username" else pys "github_username"
    pure (r.add_error (pys "GitHub username is required") path (pys "MISSING_FIELD") none)
  else
    match github_username with
    | Json.str s =>
      if isValidGithubUsername s then pure r
      else do
        let hasMeta ← vtry (pyIn (pys "metadata") data) r
        let path := if hasMeta then pys "metadata.github_username" else pys "github_username"
        pure (r.add_warning (pys "GitHub username format may be invalid") path
          (pys "SUSPICIOUS_FORMAT") none)
    | _ => Except.error (Exn.typeError, r)

/-- The structure rule block of `_validate_custom_rules`: required (error
when falsy), otherwise completeness checks. -/
def vcrStructure (data : Json) (r : ValidationResult) :
    Except (Exn × ValidationResult) ValidationResult := do
  let st ← vtry (pyGet data (pys "structure") (Json.obj [])) r
  if pyTruthy st = false then
    pure (r.add_error (pys "Structure definition is required") (pys "structure")
      (pys "MISSING_FIELD") none)
  else
    validateStructureCompleteness st r

/-- The version rule block of `_validate_custom_rules`: a warning when a
truthy version fails semantic versioning. -/
def vcrVersion (data metadata : Json) (r : ValidationResult) :
    Except (Exn × ValidationResult) ValidationResult := do
  let version ← vtry (pyGet metadata (pys "version") (Json.str [])) r
  if pyTruthy version then
    match version with
    | Json.str s =>
      if isValidVersion s then pure r
      else do
        let hasMeta ← vtry (pyIn (pys "metadata") data) r
        let path := if hasMeta then pys "metadata.version" else pys "version"
        pure (r.add_warning (pys "Version should follow semantic versioning (e.g., 1.0.0)")
          path (pys "INVALID_VERSION_FORMAT") none)
    | _ => Except.error (Exn.typeError, r)
  else
    pure r

/-- validators.SchemaValidator._validate_custom_rules: the custom semantic
rules, applied in source order to the result accumulated so far
(`metadata = data.get('metadata', data)`).  Exceptions carry the partial
result (see `vtry`). -/
def validateCustomRules (data : Json) (result : ValidationResult) :
    Except (Exn × ValidationResult) ValidationResult := do
  let metadata ← vtry (pyGet data (pys "metadata") data) result
  let r ← vcrProjectName data metadata result
  let r ← vcrGithub data metadata r
  let r ← vcrStructure data r
  vcrVersion data metadata r

/-- Approximate rendering of `str(e)` for the messages that interpolate a
caught exception; only the exception class is modelled, the exact builtin
message text is an environment detail no theorem relies on. -/
def renderExn : Exn → PyStr
  | .typeError => pys "TypeError"
  | .attributeError => pys "AttributeError"
  | .keyError => pys "KeyError"
  | .validationError _ _ => pys "ValidationError"
  | .migrationError _ _ => pys "MigrationError"

/-- validators.SchemaValidator.validate.  The `jsonschema` library and the
schema contract file live outside src/: the sorted schema-level violations
are the parameter `schemaErrors`, and `schemaVersionDefault` stands for
`self.schema.get('version', 'unknown')`.  The `schema_version` lookup
happens before the `try`, so a non-dict document raises; inside the `try`,
an exception lands in the `except` branch with the partially mutated result
(Python mutates the result object in place). -/
def SchemaValidator.validate (schemaVersionDefault : Json)
    (schemaErrors : List Models.ValidationError) (data : Json) :
    Except Exn ValidationResult := do
  let r0 := ValidationResult.fresh true
  let sv ← pyGet data (pys "version") schemaVersionDefault
  let r1 := { r0 with schema_version := sv }
  let r2 := schemaErrors.foldl (fun r e =>
    r.add_error e.message e.path (pys "SCHEMA_VALIDATION_ERROR") none) r1
  match validateCustomRules data r2 with
  | .ok r => pure r
  | .error ep =>
    pure (ep.2.add_error (pys "Schema validation failed: " ++ renderExn ep.1) []
      (pys "SCHEMA_ERROR") none)

/-! ## parser.py -/

/-- One iteration of `_validate_basic_structure`'s required-metadata-field
loop: `if field not in metadata: add_error(...)`. -/
def vbMissingMetaField (metadata : Json) (r : ValidationResult) (f : PyStr) :
    Except Exn ValidationResult := do
  let b ← pyIn f metadata
  pure (if b then r
    else r.add_error (pys "Required metadata field " ++ apos ++ f ++ apos ++ pys " is missing")
      (pys "metadata." ++ f) (pys "MISSING_FIELD") none)

/-- The required-metadata-fields loop of `_validate_basic_structure`. -/
def vbMissingMetaFields (metadata : Json) (fields : List PyStr) (r : ValidationResult) :
    Except Exn ValidationResult :=
  fields.foldlM (vbMissingMetaField metadata) r

/-- A `_validate_basic_structure` type check:
`if f in c and not isinstance(c[f], str): add_error(msg, path, "INVALID_TYPE")`. -/
def vbTypeCheck (c : Json) (f msg path : PyStr) (r : ValidationResult) :
    Except Exn ValidationResult := do
  let b ← pyIn f c
  if b then do
    let v ← pyGetItem c f
    pure (if isStr v then r else r.add_error msg path (pys "INVALID_TYPE") none)
  else
    pure r

/-- The v2 branch of `_validate_basic_structure` (metadata present). -/
def vbV2 (metadata : Json) (r : ValidationResult) : Except Exn ValidationResult := do
  let r ← vbMissingMetaFields metadata
    [pys "project_name", pys "github_username", pys "version", pys "schema_version"] r
  let r ← vbTypeCheck metadata (pys "project_name") (pys "project_name must be a string")
    (pys "metadata.project_name") r
  let r ← vbTypeCheck metadata (pys "github_username") (pys "github_username must be a string")
    (pys "metadata.github_username") r
  vbTypeCheck metadata (pys "version") (pys "version must be a string") (pys "metadata.version") r

/-- One iteration of the v1 required-field loop. -/
def vbMissingField (data : Json) (r : ValidationResult) (f : PyStr) :
    Except Exn ValidationResult := do
  let b ← pyIn f data
  pure (if b then r
    else r.add_error (pys "Required field " ++ apos ++ f ++ apos ++ pys " is missing") f
      (pys "MISSING_FIELD") none)

/-- The v1 branch of `_validate_basic_structure` (no metadata key). -/
def vbV1 (data : Json) (r : ValidationResult) : Except Exn ValidationResult := do
  let r ← [pys "project_name", pys "github_username", pys "version", pys "structure"].foldlM
    (vbMissingField data) r
  let r ← vbTypeCheck data (pys "project_name") (pys "project_name must be a string")
    (pys "project_name") r
  let r ← vbTypeCheck data (pys "github_username") (pys "github_username must be a string")
    (pys "github_username") r
  vbTypeCheck data (pys "version") (pys "version must be a string") (pys "version") r

/-- The structure-field checks of `_validate_basic_structure`, shared by both
formats: presence, dict-ness, and non-emptiness of `data.get('structure', {})`. -/
def vbStructureChecks (data : Json) (r : ValidationResult) : Except Exn ValidationResult := do
  let b ← pyIn (pys "structure") data
  let r ←
    if b = false then
      pure (r.add_error (pys "Required field " ++ apos ++ pys "structure" ++ apos ++
        pys " is missing") (pys "structure") (pys "MISSING_FIELD") none)
    else do
      let v ← pyGetItem data (pys "structure")
      pure (if isDict v then r
        else r.add_error (pys "structure must be an object") (pys "structure")
          (pys "INVALID_TYPE") none)
  let st ← pyGet data (pys "structure") (Json.obj [])
  pure (if pyTruthy st then r
    else r.add_error (pys "Structure cannot be empty") (pys "structure")
      (pys "EMPTY_STRUCTURE") none)

/-- parser.StructureParser._validate_basic_structure: fallback validation. -/
def StructureParser.validateBasicStructure (data : Json) : Except Exn ValidationResult := do
  let r := ValidationResult.fresh true
  let hasMeta ← pyIn (pys "metadata") data
  let r ←
    if hasMeta then do
      let metadata ← pyGetItem data (pys "metadata")
      vbV2 metadata r
    else
      vbV1 data r
  vbStructureChecks data r

/-- parser.StructureParser.validate.  The delegation branch is statically
disabled in the source (`if False and self.validator:`, pending Issue #31);
`hasValidator` models `self.validator is not None`, and the two modelling
parameters of `SchemaValidator.validate` are threaded for the (dead)
delegation branch, which also wraps delegation errors per the source. -/
def StructureParser.validate (hasValidator : Bool) (schemaVersionDefault : Json)
    (schemaErrors : List Models.ValidationError) (data : Json) :
    Except Exn ValidationResult :=
  if false && hasValidator then
    match SchemaValidator.validate schemaVersionDefault schemaErrors data with
    | .ok r => .ok r
    | .error e =>
      .ok ((ValidationResult.fresh false).add_error
        (pys "Schema validation error: " ++ renderExn e) [] (pys "SCHEMA_ERROR") none)
  else
    StructureParser.validateBasicStructure data

/-- parser.StructureParser.parse_string, from the point where the JSON text
has been decoded into a document by the external `json` library (a decode
failure raises `ParseError` before this logic runs): run validation, turn an
invalid result into a raised `ValidationError` carrying every rendered error
entry, otherwise construct the `StructureData`. -/
def StructureParser.parseData (hasValidator : Bool) (schemaVersionDefault : Json)
    (schemaErrors : List Models.ValidationError) (data : Json) :
    Except Exn StructureData := do
  let validation_result ←
    StructureParser.validate hasValidator schemaVersionDefault schemaErrors data
  if validation_result.is_valid = false then
    Except.error (Exn.validationError (pys "Structure validation failed")
      (validation_result.errors.map Models.ValidationError.toStr))
  else
    StructureData.from_dict data

/-- parser.StructureParser.export_structure: the document built for export
(the subsequent `json.dump` to `output_path` is external file I/O).
Optional fields are appended only when truthy. -/
def StructureParser.export_structure (d : StructureData) : Json :=
  Json.obj ([(pys "project_name", d.project_name),
    (pys "github_username", d.github_username),
    (pys "created_date", d.created_date),
    (pys "version", d.version),
    (pys "structure", d.structure_)] ++
    (if pyTruthy d.description then [(pys "description", d.description)] else []) ++
    (if pyTruthy d.tags then [(pys "tags", d.tags)] else []) ++
    (if pyTruthy d.template_path then [(pys "template_path", d.template_path)] else []))

/-- parser.StructureParser._migrate_v1_to_v2: wrap the fields into a
v2-shaped dict (version and schema_version pinned to "2.0.0", `tags` and
`structure` shallow-copied) and rebuild through `from_dict`. -/
def StructureParser.migrate_v1_to_v2 (d : StructureData) : Except Exn StructureData := do
  let tagsCopy ← pyCopy d.tags
  let structureCopy ← pyCopy d.structure_
  StructureData.from_dict (Json.obj
    [(pys "metadata", Json.obj
      [(pys "project_name", d.project_name),
       (pys "github_username", d.github_username),
       (pys "created_date", d.created_date),
       (pys "version", Json.str (pys "2.0.0")),
       (pys "schema_version", Json.str (pys "2.0.0")),
       (pys "description", d.description),
       (pys "tags", tagsCopy)]),
     (pys "structure", structureCopy)])

/-- parser.StructureParser._migrate_structure: only `1.x` → `"2.0"` is
supported; anything else raises `MigrationError` naming both versions. -/
def StructureParser.migrate_structure (d : StructureData) (target : PyStr) :
    Except Exn StructureData := do
  let b ← pyStartswith d.version (pys "1.")
  if b && (target == pys "2.0") then
    StructureParser.migrate_v1_to_v2 d
  else
    Except.error (Exn.migrationError d.version target)

/-- The migration decision of parser.StructureParser.load_structure_with_migration
after the file has been parsed: migrate exactly when the current version
differs from the target. -/
def StructureParser.migrate_if_needed (d : StructureData) (target : PyStr) :
    Except Exn StructureData :=
  if jsonEqStr d.version target then .ok d
  else StructureParser.migrate_structure d target

/-! ## Totality of the fallback validation on well-shaped documents -/

theorem vbMissingMetaFields_obj_ok (fields : List PyStr) (m : List (PyStr × Json))
    (r : ValidationResult) :
    ∃ r', vbMissingMetaFields (Json.obj m) fields r = .ok r' := by
  induction fields generalizing r with
  | nil => exact ⟨r, rfl⟩
  | cons f fs ih =>
    simp only [vbMissingMetaFields, List.foldlM_cons, vbMissingMetaField, pyIn, exOk_bind]
    exact ih _

theorem vbMissingFields_obj_ok (fields : List PyStr) (m : List (PyStr × Json))
    (r : ValidationResult) :
    ∃ r', fields.foldlM (vbMissingField (Json.obj m)) r = .ok r' := by
  induction fields generalizing r with
  | nil => exact ⟨r, rfl⟩
  | cons f fs ih =>
    simp only [List.foldlM_cons, vbMissingField, pyIn, exOk_bind]
    exact ih _

theorem vbTypeCheck_obj_ok (m : List (PyStr × Json)) (f msg path : PyStr)
    (r : ValidationResult) :
    ∃ r', vbTypeCheck (Json.obj m) f msg path r = .ok r' := by
  rcases hl : lookupKey f m with _ | v
  · refine ⟨r, ?_⟩
    simp only [vbTypeCheck, pyIn_obj, hl, Option.isSome_none, exOk_bind, Bool.false_eq_true,
      reduceIte]
    rfl
  · refine ⟨if isStr v then r else r.add_error msg path (pys "INVALID_TYPE") none, ?_⟩
    simp only [vbTypeCheck, pyIn_obj, hl, Option.isSome_some, exOk_bind, reduceIte,
      pyGetItem]
    rfl

theorem vbV2_obj_ok (m : List (PyStr × Json)) (r : ValidationResult) :
    ∃ r', vbV2 (Json.obj m) r = .ok r' := by
  obtain ⟨r1, h1⟩ := vbMissingMetaFields_obj_ok
    [pys "project_name", pys "github_username", pys "version", pys "schema_version"] m r
  obtain ⟨r2, h2⟩ := vbTypeCheck_obj_ok m (pys "project_name")
    (pys "project_name must be a string") (pys "metadata.project_name") r1
  obtain ⟨r3, h3⟩ := vbTypeCheck_obj_ok m (pys "github_username")
    (pys "github_username must be a string") (pys "metadata.github_username") r2
  obtain ⟨r4, h4⟩ := vbTypeCheck_obj_ok m (pys "version")
    (pys "version must be a string") (pys "metadata.version") r3
  exact ⟨r4, by simp [vbV2, h1, h2, h3, h4]⟩

theorem vbV1_obj_ok (kvs : List (PyStr × Json)) (r : ValidationResult) :
    ∃ r', vbV1 (Json.obj kvs) r = .ok r' := by
  obtain ⟨r1, h1⟩ := vbMissingFields_obj_ok
    [pys "project_name", pys "github_username", pys "version", pys "structure"] kvs r
  obtain ⟨r2, h2⟩ := vbTypeCheck_obj_ok kvs (pys "project_name")
    (pys "project_name must be a string") (pys "project_name") r1
  obtain ⟨r3, h3⟩ := vbTypeCheck_obj_ok kvs (pys "github_username")
    (pys "github_username must be a string") (pys "github_username") r2
  obtain ⟨r4, h4⟩ := vbTypeCheck_obj_ok kvs (pys "version")
    (pys "version must be a string") (pys "version") r3
  exact ⟨r4, by simp [vbV1, h1, h2, h3, h4]⟩

theorem vbStructureChecks_obj_ok (kvs : List (PyStr × Json)) (r : ValidationResult) :
    ∃ r', vbStructureChecks (Json.obj kvs) r = .ok r' := by
  rcases hl : lookupKey (pys "structure") kvs with _ | v
  · refine ⟨(r.add_error (pys "Required field " ++ apos ++ pys "structure" ++ apos ++
        pys " is missing") (pys "structure") (pys "MISSING_FIELD") none).add_error
        (pys "Structure cannot be empty") (pys "structure") (pys "EMPTY_STRUCTURE") none, ?_⟩
    simp only [vbStructureChecks, pyIn_obj, hl, Option.isSome_none, exOk_bind,
      Bool.false_eq_true, reduceIte, pyGet, Option.getD_none]
    rfl
  · refine ⟨(fun r1 => if pyTruthy v then r1
        else r1.add_error (pys "Structure cannot be empty") (pys "structure")
          (pys "EMPTY_STRUCTURE") none)
      (if isDict v then r
        else r.add_error (pys "structure must be an object") (pys "structure")
          (pys "INVALID_TYPE") none), ?_⟩
    simp only [vbStructureChecks, pyIn_obj, hl, Option.isSome_some, exOk_bind,
      Bool.true_eq_false, reduceIte, pyGetItem, pyGet, Option.getD_some]
    rfl

theorem validateBasicStructure_obj_ok (kvs : List (PyStr × Json))
    (hm : lookupKey (pys "metadata") kvs = none ∨
          ∃ m, lookupKey (pys "metadata") kvs = some (Json.obj m)) :
    ∃ r, StructureParser.validateBasicStructure (Json.obj kvs) = .ok r := by
  rcases hm with h | ⟨m, h⟩
  · obtain ⟨r1, h1⟩ := vbV1_obj_ok kvs (ValidationResult.fresh true)
    obtain ⟨r2, h2⟩ := vbStructureChecks_obj_ok kvs r1
    refine ⟨r2, ?_⟩
    simp [StructureParser.validateBasicStructure, pyIn_obj, h, h1, h2]
  · obtain ⟨r1, h1⟩ := vbV2_obj_ok m (ValidationResult.fresh true)
    obtain ⟨r2, h2⟩ := vbStructureChecks_obj_ok kvs r1
    refine ⟨r2, ?_⟩
    simp [StructureParser.validateBasicStructure, pyIn_obj, h, pyGetItem, h1, h2]

/-! ## C2: delegation to the SchemaValidator -/

/-- C2 (amended): `StructureParser.validate` never delegates to the
configured SchemaValidator — the delegation branch is statically disabled
(`if False and self.validator:`, pending Issue #31) — so validation is
always the built-in fallback, even when a SchemaValidator is configured. -/
theorem c2_validate_never_delegates (hasValidator : Bool) (schemaVersionDefault : Json)
    (schemaErrors : List Models.ValidationError) (data : Json) :
    StructureParser.validate hasValidator schemaVersionDefault schemaErrors data =
      StructureParser.validateBasicStructure data := rfl

/-- A valid v1 document without a `meta-repo` section: the built-in fallback
accepts it, the SchemaValidator's custom rules reject it. -/
def c2doc : Json :=
  Json.obj [(pys "project_name", Json.str (pys "valid-name")),
    (pys "github_username", Json.str (pys "user")),
    (pys "created_date", Json.str (pys "2024-01-01")),
    (pys "version", Json.str (pys "1.0.0")),
    (pys "structure", Json.obj [(pys "docs", Json.obj [])])]

/-- C2 counterexample: with a SchemaValidator configured (and its schema
pass, modelled as a parameter, reporting no violation), `validate` on
`c2doc` returns a valid result while `SchemaValidator.validate` returns an
invalid one (the custom rules require a `meta-repo` section) — so `validate`
did not delegate, and the validator's rules do not determine the result. -/
theorem c2_counterexample :
    (StructureParser.validate true (Json.str (pys "unknown")) [] c2doc).map
        ValidationResult.is_valid = .ok true ∧
    (SchemaValidator.validate (Json.str (pys "unknown")) [] c2doc).map
        ValidationResult.is_valid = .ok false := by
  exact ⟨rfl, rfl⟩

/-! ## C4: dual error contract of parse vs validate -/

/-- C4 (amended): (a) whenever validation yields an invalid result, the
parse entry point raises a single `ValidationError` carrying the rendered
form of every collected error (none dropped); (b) `validate` returns a
`ValidationResult` without raising for every mapping whose `metadata` value,
if present, is itself a mapping (on other mappings, e.g. `metadata: null`,
it raises `TypeError`, see the counterexample). -/
theorem c4_parse_raises_validate_returns (hasValidator : Bool)
    (schemaVersionDefault : Json) (schemaErrors : List Models.ValidationError) :
    (∀ (data : Json) (r : ValidationResult),
      StructureParser.validate hasValidator schemaVersionDefault schemaErrors data = .ok r →
      r.is_valid = false →
      StructureParser.parseData hasValidator schemaVersionDefault schemaErrors data =
        .error (.validationError (pys "Structure validation failed")
          (r.errors.map Models.ValidationError.toStr))) ∧
    (∀ kvs : List (PyStr × Json),
      (lookupKey (pys "metadata") kvs = none ∨
        ∃ m, lookupKey (pys "metadata") kvs = some (Json.obj m)) →
      ∃ r, StructureParser.validate hasValidator schemaVersionDefault schemaErrors
        (Json.obj kvs) = .ok r) := by
  constructor
  · intro data r hok hinv
    simp [StructureParser.parseData, hok, hinv]
  · intro kvs hm
    exact validateBasicStructure_obj_ok kvs hm

/-- C4 counterexample: `{"metadata": null}` is a mapping, yet `validate`
raises `TypeError` (`'project_name' in None`) instead of returning a
`ValidationResult`. -/
theorem c4_counterexample :
    StructureParser.validate false Json.null [] (Json.obj [(pys "metadata", Json.null)]) =
      .error Exn.typeError := rfl

/-- Witness for C4 at the empty document (invalid: all required fields
missing): validation returns a result and parse raises the ValidationError
carrying all of its rendered errors. -/
theorem c4_parse_raises_validate_returns_witness :
    ∃ r, StructureParser.validate false Json.null [] (Json.obj []) = .ok r ∧
      StructureParser.parseData false Json.null [] (Json.obj []) =
        .error (.validationError (pys "Structure validation failed")
          (r.errors.map Models.ValidationError.toStr)) := by
  obtain ⟨r, hr⟩ := (c4_parse_raises_validate_returns false Json.null []).2 [] (Or.inl rfl)
  have hcomp : (StructureParser.validate false Json.null [] (Json.obj [])).map
      ValidationResult.is_valid = .ok false := rfl
  rw [hr] at hcomp
  have hv : r.is_valid = false := by
    injection hcomp
  exact ⟨r, hr, (c4_parse_raises_validate_returns false Json.null []).1 (Json.obj []) r hr hv⟩

/-! ## C1: migration to "2.0" -/

/-- C1 (amended): migrating a v1 `StructureData` (version a string starting
with `"1."`, `tags`/`structure` copyable, i.e. a list/dict) to target
`"2.0"` succeeds once, preserving `project_name`, `github_username` and the
`structure` tree and setting both `version` and `schema_version` to
`"2.0.0"`; but migrating the result again to `"2.0"` does not succeed — it
raises `MigrationError`, because the migrated version `"2.0.0"` neither
equals the target `"2.0"` nor starts with `"1."`. -/
theorem c1_migrate_once_not_twice (d : StructureData) (v : PyStr)
    (hv : d.version = Json.str v) (h1 : (pys "1.").isPrefixOf v = true)
    (hct : pyCopy d.tags = .ok d.tags) (hcs : pyCopy d.structure_ = .ok d.structure_) :
    ∃ d1, StructureParser.migrate_structure d (pys "2.0") = .ok d1 ∧
      d1.project_name = d.project_name ∧
      d1.github_username = d.github_username ∧
      d1.structure_ = d.structure_ ∧
      d1.schema_version = Json.str (pys "2.0.0") ∧
      d1.version = Json.str (pys "2.0.0") ∧
      StructureParser.migrate_structure d1 (pys "2.0") =
        .error (.migrationError (Json.str (pys "2.0.0")) (pys "2.0")) := by
  refine ⟨⟨d.project_name, d.github_username, d.created_date, Json.str (pys "2.0.0"),
    Json.str (pys "2.0.0"), d.structure_, d.description, Json.null, Json.null, d.tags⟩,
    ?_, rfl, rfl, rfl, rfl, rfl, rfl⟩
  simp only [StructureParser.migrate_structure, hv, pyStartswith, h1, exOk_bind,
    StructureParser.migrate_v1_to_v2, hct, hcs]
  rfl

/-- A concrete v1 StructureData for the C1 counterexample and witness. -/
def c1sd : StructureData :=
  ⟨Json.str (pys "legacy-project"), Json.str (pys "legacyuser"),
   Json.str (pys "2024-01-01"), Json.str (pys "1.0"), Json.str (pys "1.0"),
   Json.obj [(pys "meta-repo", Json.obj [])], Json.null, Json.null, Json.null,
   Json.arr []⟩

/-- C1 counterexample: migrating `c1sd` to `"2.0"` and then migrating the
result again to `"2.0"` does not succeed both times — the second migration
raises `MigrationError` (version `"2.0.0"` does not start with `"1."`). -/
theorem c1_counterexample :
    (StructureParser.migrate_structure c1sd (pys "2.0") >>= fun d1 =>
      StructureParser.migrate_structure d1 (pys "2.0")) =
      .error (.migrationError (Json.str (pys "2.0.0")) (pys "2.0")) := rfl

/-- Witness for C1's amended theorem at `c1sd`. -/
theorem c1_migrate_once_not_twice_witness :
    ∃ d1, StructureParser.migrate_structure c1sd (pys "2.0") = .ok d1 ∧
      d1.project_name = c1sd.project_name ∧
      d1.github_username = c1sd.github_username ∧
      d1.structure_ = c1sd.structure_ ∧
      d1.schema_version = Json.str (pys "2.0.0") ∧
      d1.version = Json.str (pys "2.0.0") ∧
      StructureParser.migrate_structure d1 (pys "2.0") =
        .error (.migrationError (Json.str (pys "2.0.0")) (pys "2.0")) :=
  c1_migrate_once_not_twice c1sd (pys "1.0") rfl rfl rfl rfl

/-! ## C9: custom-rule severities in the SchemaValidator -/

/-- Result evolution: later stages only append errors and never restore
validity. -/
def Evolves (r r' : ValidationResult) : Prop :=
  (∃ l, r'.errors = r.errors ++ l) ∧ (r.is_valid = false → r'.is_valid = false)

theorem evolves_refl (r : ValidationResult) : Evolves r r :=
  ⟨⟨[], by simp⟩, id⟩

theorem evolves_trans {r1 r2 r3 : ValidationResult} (h1 : Evolves r1 r2)
    (h2 : Evolves r2 r3) : Evolves r1 r3 := by
  obtain ⟨⟨l1, hl1⟩, hv1⟩ := h1
  obtain ⟨⟨l2, hl2⟩, hv2⟩ := h2
  exact ⟨⟨l1 ++ l2, by rw [hl2, hl1, List.append_assoc]⟩, fun h => hv2 (hv1 h)⟩

theorem evolves_add_error (r : ValidationResult) (m p c : PyStr) (ln : Option Int) :
    Evolves r (r.add_error m p c ln) :=
  ⟨⟨[⟨m, p, c, ln, none⟩], rfl⟩, fun _ => rfl⟩

theorem evolves_add_warning (r : ValidationResult) (m p c : PyStr) (ln : Option Int) :
    Evolves r (r.add_warning m p c ln) :=
  ⟨⟨[], by simp [ValidationResult.add_warning]⟩, id⟩

/-- The result a validator step leaves behind: its value on success, the
carried partial result on an exception. -/
def resOf : Except (Exn × ValidationResult) ValidationResult → ValidationResult
  | .ok r => r
  | .error p => p.2

@[simp]
theorem resOf_ok (r : ValidationResult) :
    resOf (.ok r) = r := rfl

@[simp]
theorem resOf_error (p : Exn × ValidationResult) :
    resOf (.error p) = p.2 := rfl

/-- A step's outcome evolves the input result, on success and on raise. -/
def REvolves (x : Except (Exn × ValidationResult) ValidationResult)
    (r : ValidationResult) : Prop :=
  Evolves r (resOf x)

theorem revolves_bind {x : Except (Exn × ValidationResult) ValidationResult}
    {f : ValidationResult → Except (Exn × ValidationResult) ValidationResult}
    {r : ValidationResult} (hx : REvolves x r) (hf : ∀ r', REvolves (f r') r') :
    REvolves (x >>= f) r := by
  cases x with
  | error p => exact hx
  | ok r' =>
    have h2 := hf r'
    simp only [REvolves, resOf_ok] at hx
    exact evolves_trans hx h2

theorem revolves_vtry_bind {α : Type} {y : Except Exn α}
    {f : α → Except (Exn × ValidationResult) ValidationResult} {r : ValidationResult}
    (hf : ∀ a, REvolves (f a) r) : REvolves (vtry y r >>= f) r := by
  cases y with
  | error e => exact evolves_refl r
  | ok a => exact hf a

theorem revolves_pure_ite {c : Prop} [Decidable c] {r r1 r2 : ValidationResult}
    (h1 : Evolves r r1) (h2 : Evolves r r2) :
    REvolves (pure (if c then r1 else r2) :
      Except (Exn × ValidationResult) ValidationResult) r := by
  by_cases h : c <;> simp [REvolves, h, resOf]
  · exact h1
  · exact h2

theorem revolves_warnloop (c : Json) (mk : PyStr → ValidationResult → ValidationResult)
    (hmk : ∀ s r, Evolves r (mk s r)) (sections : List PyStr) (r : ValidationResult) :
    REvolves (sections.foldlM (fun r s => do
      let b ← vtry (pyIn s c) r
      pure (if b then r else mk s r)) r) r := by
  induction sections generalizing r with
  | nil => exact evolves_refl r
  | cons s rest ih =>
    rw [List.foldlM_cons]
    refine revolves_bind (revolves_vtry_bind ?_) ih
    intro b
    exact revolves_pure_ite (evolves_refl r) (hmk s r)

theorem revolves_validateMetaRepoStructure (mr : Json) (r : ValidationResult) :
    REvolves (validateMetaRepoStructure mr r) r := by
  unfold validateMetaRepoStructure
  refine revolves_bind (revolves_warnloop mr _ (fun s r => evolves_add_warning r _ _ _ none)
    _ r) ?_
  intro r1
  refine revolves_vtry_bind ?_
  intro b
  by_cases hb : b = true
  · subst hb
    simp only [reduceIte]
    refine revolves_vtry_bind ?_
    intro governance
    by_cases hd : isDict governance = true
    · simp only [hd, reduceIte]
      exact revolves_warnloop governance _ (fun s r => evolves_add_warning r _ _ _ none) _ r1
    · simp only [Bool.not_eq_true] at hd
      simp only [hd, Bool.false_eq_true, reduceIte]
      exact evolves_refl r1
  · simp only [Bool.not_eq_true] at hb
    simp only [hb, Bool.false_eq_true, reduceIte]
    exact evolves_refl r1

theorem revolves_validateStructureCompleteness (st : Json) (r : ValidationResult) :
    REvolves (validateStructureCompleteness st r) r := by
  unfold validateStructureCompleteness
  refine revolves_bind
    (revolves_warnloop st _ (fun s r => evolves_add_error r _ _ _ none) _ r) ?_
  intro r1
  refine revolves_vtry_bind ?_
  intro b
  by_cases hb : b = true
  · subst hb
    simp only [reduceIte]
    refine revolves_vtry_bind ?_
    intro meta_repo
    by_cases hd : isDict meta_repo = false
    · simp only [hd, reduceIte]
      exact evolves_add_error r1 _ _ _ none
    · simp only [Bool.not_eq_false] at hd
      simp only [hd, Bool.true_eq_false, reduceIte]
      exact revolves_validateMetaRepoStructure meta_repo r1
  · simp only [Bool.not_eq_true] at hb
    simp only [hb, Bool.false_eq_true, reduceIte]
    exact evolves_refl r1

theorem revolves_vcrGithub (data metadata : Json) (r : ValidationResult) :
    REvolves (vcrGithub data metadata r) r := by
  unfold vcrGithub
  refine revolves_vtry_bind ?_
  intro g
  by_cases hg : pyTruthy g = false
  · simp only [hg, reduceIte]
    refine revolves_vtry_bind ?_
    intro b
    exact evolves_add_error r _ _ _ none
  · simp only [hg, reduceIte]
    cases g with
    | str s =>
      by_cases hv : isValidGithubUsername s = true
      · simp only [hv, reduceIte]
        exact evolves_refl r
      · simp only [Bool.not_eq_true] at hv
        simp only [hv, Bool.false_eq_true, reduceIte]
        refine revolves_vtry_bind ?_
        intro b
        exact evolves_add_warning r _ _ _ none
    | null => exact evolves_refl r
    | bool b => exact evolves_refl r
    | num n => exact evolves_refl r
    | arr l => exact evolves_refl r
    | obj kvs => exact evolves_refl r

theorem revolves_vcrStructure (data : Json) (r : ValidationResult) :
    REvolves (vcrStructure data r) r := by
  unfold vcrStructure
  refine revolves_vtry_bind ?_
  intro st
  by_cases hs : pyTruthy st = false
  · simp only [hs, reduceIte]
    exact evolves_add_error r _ _ _ none
  · simp only [hs, reduceIte]
    exact revolves_validateStructureCompleteness st r

theorem revolves_vcrVersion (data metadata : Json) (r : ValidationResult) :
    REvolves (vcrVersion data metadata r) r := by
  unfold vcrVersion
  refine revolves_vtry_bind ?_
  intro version
  by_cases hv : pyTruthy version = true
  · simp only [hv, reduceIte]
    cases version with
    | str s =>
      by_cases hvv : isValidVersion s = true
      · simp only [hvv, reduceIte]
        exact evolves_refl r
      · simp only [Bool.not_eq_true] at hvv
        simp only [hvv, Bool.false_eq_true, reduceIte]
        refine revolves_vtry_bind ?_
        intro b
        exact evolves_add_warning r _ _ _ none
    | null => exact evolves_refl r
    | bool b => exact evolves_refl r
    | num n => exact evolves_refl r
    | arr l => exact evolves_refl r
    | obj kvs => exact evolves_refl r
  · simp only [Bool.not_eq_true] at hv
    simp only [hv, Bool.false_eq_true, reduceIte]
    exact evolves_refl r

/-- The tail of `_validate_custom_rules` after the project-name block
evolves the result it starts from. -/
theorem revolves_vcr_tail (data metadata : Json) (r : ValidationResult) :
    REvolves (vcrGithub data metadata r >>= fun r1 =>
      vcrStructure data r1 >>= fun r2 => vcrVersion data metadata r2) r := by
  refine revolves_bind (revolves_vcrGithub data metadata r) ?_
  intro r1
  exact revolves_bind (revolves_vcrStructure data r1)
    (fun r2 => revolves_vcrVersion data metadata r2)

/-- The schema-error fold at the start of `SchemaValidator.validate`:
each entry becomes an appended `SCHEMA_VALIDATION_ERROR`; warnings and
schema_version are untouched; the result is invalid as soon as the list is
nonempty. -/
theorem schemaErrors_foldl_spec (serrs : List Models.ValidationError)
    (r : ValidationResult) :
    (serrs.foldl (fun r e =>
        r.add_error e.message e.path (pys "SCHEMA_VALIDATION_ERROR") none) r).errors =
      r.errors ++ serrs.map (fun e =>
        ⟨e.message, e.path, pys "SCHEMA_VALIDATION_ERROR", none, none⟩) ∧
    (serrs.foldl (fun r e =>
        r.add_error e.message e.path (pys "SCHEMA_VALIDATION_ERROR") none) r).warnings =
      r.warnings ∧
    (serrs.foldl (fun r e =>
        r.add_error e.message e.path (pys "SCHEMA_VALIDATION_ERROR") none) r).schema_version =
      r.schema_version ∧
    (serrs.foldl (fun r e =>
        r.add_error e.message e.path (pys "SCHEMA_VALIDATION_ERROR") none) r).is_valid =
      (if serrs = [] then r.is_valid else false) := by
  induction serrs generalizing r with
  | nil => simp
  | cons e rest ih =>
    obtain ⟨h1, h2, h3, h4⟩ := ih (r.add_error e.message e.path (pys "SCHEMA_VALIDATION_ERROR") none)
    refine ⟨?_, ?_, ?_, ?_⟩
    · rw [List.foldl_cons, h1]
      simp [ValidationResult.add_error]
    · rw [List.foldl_cons, h2]
      rfl
    · rw [List.foldl_cons, h3]
      rfl
    · rw [List.foldl_cons, h4]
      rcases rest with _ | ⟨e2, rest2⟩ <;> simp [ValidationResult.add_error]

@[simp]
theorem vtry_ok {α : Type} (a : α) (r : ValidationResult) :
    vtry (.ok a) r = .ok a := rfl

@[simp]
theorem vtry_error {α : Type} (e : Exn) (r : ValidationResult) :
    vtry (.error e : Except Exn α) r = .error (e, r) := rfl

@[simp]
theorem pyGet_obj (kvs : List (PyStr × Json)) (k : PyStr) (d : Json) :
    pyGet (Json.obj kvs) k d = .ok ((lookupKey k kvs).getD d) := rfl

theorem pyTruthy_str_of_ne (p : PyStr) (hp : p ≠ []) : pyTruthy (Json.str p) = true := by
  simp [pyTruthy, List.isEmpty_iff, hp]

theorem pyTruthy_obj_of_ne (l : List (PyStr × Json)) (hl : l ≠ []) :
    pyTruthy (Json.obj l) = true := by
  simp [pyTruthy, List.isEmpty_iff, hl]

theorem mem_errors_of_evolves {r r' : ValidationResult} {e : Models.ValidationError}
    (h : Evolves r r') (he : e ∈ r.errors) : e ∈ r'.errors := by
  obtain ⟨⟨l, hl⟩, _⟩ := h
  rw [hl]
  exact List.mem_append_left l he

/-- Warning-only evolution: errors and validity untouched, warnings only
appended. -/
def WarnOnly (r r' : ValidationResult) : Prop :=
  r'.errors = r.errors ∧ r'.is_valid = r.is_valid ∧ ∃ l, r'.warnings = r.warnings ++ l

theorem warnonly_refl (r : ValidationResult) : WarnOnly r r :=
  ⟨rfl, rfl, ⟨[], by simp⟩⟩

theorem warnonly_trans {r1 r2 r3 : ValidationResult} (h1 : WarnOnly r1 r2)
    (h2 : WarnOnly r2 r3) : WarnOnly r1 r3 := by
  obtain ⟨he1, hv1, l1, hl1⟩ := h1
  obtain ⟨he2, hv2, l2, hl2⟩ := h2
  exact ⟨he2.trans he1, hv2.trans hv1,
    ⟨l1 ++ l2, by rw [hl2, hl1, List.append_assoc]⟩⟩

theorem warnonly_add_warning (r : ValidationResult) (m p c : PyStr) (ln : Option Int) :
    WarnOnly r (r.add_warning m p c ln) :=
  ⟨rfl, rfl, ⟨[⟨m, p, c, ln, none⟩], rfl⟩⟩

theorem pyGetItem_obj_some {kvs : List (PyStr × Json)} {k : PyStr} {v : Json}
    (h : lookupKey k kvs = some v) : pyGetItem (Json.obj kvs) k = .ok v := by
  simp [pyGetItem, h]

theorem warnloop_ok (c : List (PyStr × Json)) (mk : PyStr → ValidationResult → ValidationResult)
    (hmk : ∀ s r, WarnOnly r (mk s r)) (sections : List PyStr) (r : ValidationResult) :
    ∃ r', (sections.foldlM (fun r s => do
      let b ← vtry (pyIn s (Json.obj c)) r
      pure (if b then r else mk s r)) r) = .ok r' ∧ WarnOnly r r' := by
  induction sections generalizing r with
  | nil => exact ⟨r, rfl, warnonly_refl r⟩
  | cons s rest ih =>
    obtain ⟨r', hr', hw⟩ := ih (if (lookupKey s c).isSome then r else mk s r)
    refine ⟨r', ?_, ?_⟩
    · rw [List.foldlM_cons]
      have hbody : (do
          let b ← vtry (pyIn s (Json.obj c)) r
          pure (if b then r else mk s r) :
            Except (Exn × ValidationResult) ValidationResult) =
          pure (if (lookupKey s c).isSome then r else mk s r) := by
        rw [pyIn_obj, vtry_ok, exOk_bind]
      rw [hbody, exPure_bind]
      exact hr'
    · refine warnonly_trans ?_ hw
      by_cases hb : (lookupKey s c).isSome
      · simp [hb, warnonly_refl]
      · simp only [hb, Bool.false_eq_true, reduceIte]
        exact hmk s r

theorem warnonly_validateMetaRepoStructure (mr : List (PyStr × Json)) (r : ValidationResult) :
    ∃ r', validateMetaRepoStructure (Json.obj mr) r = .ok r' ∧ WarnOnly r r' := by
  obtain ⟨r1, h1, hw1⟩ := warnloop_ok mr
    (fun s r => r.add_warning (pys "Recommended section " ++ apos ++ s ++ apos ++
      pys " is missing from meta-repo") (pys "structure.meta-repo." ++ s)
      (pys "MISSING_RECOMMENDED_SECTION") none)
    (fun s r => warnonly_add_warning r _ _ _ none)
    [pys "governance", pys "automation", pys "documentation"] r
  rcases hg : lookupKey (pys "governance") mr with _ | v
  · refine ⟨r1, ?_, hw1⟩
    unfold validateMetaRepoStructure
    rw [h1, exOk_bind, pyIn_obj, hg]
    rw [vtry_ok, exOk_bind]
    simp only [Option.isSome_none, Bool.false_eq_true, reduceIte]
    rfl
  · have hstep : validateMetaRepoStructure (Json.obj mr) r =
        (if isDict v then
          [pys "structure", pys "policies", pys "processes"].foldlM (fun r s => do
            let b2 ← vtry (pyIn s v) r
            pure (if b2 then r
              else r.add_warning (pys "Recommended governance section " ++ apos ++ s ++
                apos ++ pys " is missing") (pys "structure.meta-repo.governance." ++ s)
                (pys "MISSING_RECOMMENDED_SECTION") none)) r1
        else pure r1) := by
      unfold validateMetaRepoStructure
      rw [h1, exOk_bind, pyIn_obj, hg]
      rw [vtry_ok, exOk_bind]
      simp only [Option.isSome_some, reduceIte]
      rw [pyGetItem_obj_some hg, vtry_ok, exOk_bind]
    cases v with
    | obj g =>
      obtain ⟨r2, h2, hw2⟩ := warnloop_ok g
        (fun s r => r.add_warning (pys "Recommended governance section " ++ apos ++ s ++
          apos ++ pys " is missing") (pys "structure.meta-repo.governance." ++ s)
          (pys "MISSING_RECOMMENDED_SECTION") none)
        (fun s r => warnonly_add_warning r _ _ _ none)
        [pys "structure", pys "policies", pys "processes"] r1
      refine ⟨r2, ?_, warnonly_trans hw1 hw2⟩
      rw [hstep]
      simp only [isDict, reduceIte]
      exact h2
    | null => exact ⟨r1, by rw [hstep]; simp only [isDict, Bool.false_eq_true, reduceIte]; rfl, hw1⟩
    | bool b => exact ⟨r1, by rw [hstep]; simp only [isDict, Bool.false_eq_true, reduceIte]; rfl, hw1⟩
    | num n => exact ⟨r1, by rw [hstep]; simp only [isDict, Bool.false_eq_true, reduceIte]; rfl, hw1⟩
    | str sv => exact ⟨r1, by rw [hstep]; simp only [isDict, Bool.false_eq_true, reduceIte]; rfl, hw1⟩
    | arr l => exact ⟨r1, by rw [hstep]; simp only [isDict, Bool.false_eq_true, reduceIte]; rfl, hw1⟩

theorem completeness_ok_warnonly (skvs mrkvs : List (PyStr × Json))
    (hmr : lookupKey (pys "meta-repo") skvs = some (Json.obj mrkvs)) (r : ValidationResult) :
    ∃ r', validateStructureCompleteness (Json.obj skvs) r = .ok r' ∧ WarnOnly r r' := by
  obtain ⟨r2, h2, hw2⟩ := warnonly_validateMetaRepoStructure mrkvs r
  refine ⟨r2, ?_, hw2⟩
  unfold validateStructureCompleteness
  rw [List.foldlM_cons]
  have hbody : (do
      let b ← vtry (pyIn (pys "meta-repo") (Json.obj skvs)) r
      pure (if b then r
        else r.add_error (pys "Required section " ++ apos ++ pys "meta-repo" ++ apos ++
          pys " is missing from structure") (pys "structure." ++ pys "meta-repo")
          (pys "MISSING_REQUIRED_SECTION") none) :
        Except (Exn × ValidationResult) ValidationResult) = pure r := by
    rw [pyIn_obj, hmr, vtry_ok, exOk_bind]
    simp
  rw [hbody, exPure_bind, List.foldlM_nil, exPure_bind, pyIn_obj, hmr, vtry_ok, exOk_bind]
  simp only [Option.isSome_some, reduceIte]
  rw [pyGetItem_obj_some hmr, vtry_ok, exOk_bind]
  simp only [isDict, Bool.true_eq_false, reduceIte]
  exact h2

theorem vcrProjectName_pass (kvs effMd : List (PyStr × Json)) (p : PyStr)
    (hpn : lookupKey (pys "project_name") effMd = some (Json.str p))
    (hp : p ≠ []) (hv : isValidProjectName p = true) (r : ValidationResult) :
    vcrProjectName (Json.obj kvs) (Json.obj effMd) r = .ok r := by
  unfold vcrProjectName
  rw [pyGet_obj, hpn, vtry_ok, exOk_bind]
  simp only [Option.getD_some, pyTruthy_str_of_ne p hp, Bool.true_eq_false, reduceIte, hv]
  rfl

theorem vcrProjectName_error (kvs effMd : List (PyStr × Json)) (p : PyStr)
    (hpn : lookupKey (pys "project_name") effMd = some (Json.str p))
    (hp : p ≠ []) (hv : isValidProjectName p = false) (r : ValidationResult) :
    vcrProjectName (Json.obj kvs) (Json.obj effMd) r =
      .ok (r.add_error (pys "Project name should be lowercase with hyphens (kebab-case)")
        (if (lookupKey (pys "metadata") kvs).isSome then pys "metadata.project_name"
         else pys "project_name") (pys "INVALID_FORMAT") none) := by
  unfold vcrProjectName
  rw [pyGet_obj, hpn, vtry_ok, exOk_bind]
  simp only [Option.getD_some, pyTruthy_str_of_ne p hp, Bool.true_eq_false, reduceIte, hv,
    Bool.false_eq_true, pyIn_obj, vtry_ok, exOk_bind]
  rfl

theorem vcrGithub_warns (kvs effMd : List (PyStr × Json)) (g : PyStr)
    (hgu : lookupKey (pys "github_username") effMd = some (Json.str g))
    (hg : g ≠ []) (hv : isValidGithubUsername g = false) (r : ValidationResult) :
    vcrGithub (Json.obj kvs) (Json.obj effMd) r =
      .ok (r.add_warning (pys "GitHub username format may be invalid")
        (if (lookupKey (pys "metadata") kvs).isSome then pys "metadata.github_username"
         else pys "github_username") (pys "SUSPICIOUS_FORMAT") none) := by
  unfold vcrGithub
  rw [pyGet_obj, hgu, vtry_ok, exOk_bind]
  simp only [Option.getD_some, pyTruthy_str_of_ne g hg, Bool.true_eq_false, reduceIte, hv,
    Bool.false_eq_true, pyIn_obj, vtry_ok, exOk_bind]
  rfl

theorem vcrStructure_ok (kvs skvs mrkvs : List (PyStr × Json))
    (hst : lookupKey (pys "structure") kvs = some (Json.obj skvs))
    (hne : skvs ≠ [])
    (hmr : lookupKey (pys "meta-repo") skvs = some (Json.obj mrkvs))
    (r : ValidationResult) :
    ∃ r', vcrStructure (Json.obj kvs) r = .ok r' ∧ WarnOnly r r' := by
  obtain ⟨r', h', hw⟩ := completeness_ok_warnonly skvs mrkvs hmr r
  refine ⟨r', ?_, hw⟩
  unfold vcrStructure
  rw [pyGet_obj, hst, vtry_ok, exOk_bind]
  simp only [Option.getD_some, pyTruthy_obj_of_ne skvs hne, Bool.true_eq_false, reduceIte]
  exact h'

theorem vcrVersion_ok (kvs effMd : List (PyStr × Json))
    (hver : lookupKey (pys "version") effMd = none ∨
      ∃ vs, lookupKey (pys "version") effMd = some (Json.str vs)) (r : ValidationResult) :
    ∃ r', vcrVersion (Json.obj kvs) (Json.obj effMd) r = .ok r' ∧ WarnOnly r r' := by
  unfold vcrVersion
  rcases hver with h | ⟨vs, h⟩
  · refine ⟨r, ?_, warnonly_refl r⟩
    rw [pyGet_obj, h, vtry_ok, exOk_bind]
    simp only [Option.getD_none, pyTruthy, List.isEmpty_nil, Bool.not_true,
      Bool.false_eq_true, reduceIte]
    rfl
  · rw [pyGet_obj, h, vtry_ok, exOk_bind]
    simp only [Option.getD_some]
    by_cases hvs : pyTruthy (Json.str vs) = true
    · simp only [hvs, reduceIte]
      by_cases hvv : isValidVersion vs = true
      · refine ⟨r, ?_, warnonly_refl r⟩
        simp only [hvv, reduceIte]
        rfl
      · simp only [Bool.not_eq_true] at hvv
        refine ⟨r.add_warning (pys "Version should follow semantic versioning (e.g., 1.0.0)")
          (if (lookupKey (pys "metadata") kvs).isSome then pys "metadata.version"
           else pys "version") (pys "INVALID_VERSION_FORMAT") none, ?_,
          warnonly_add_warning r _ _ _ none⟩
        simp only [hvv, Bool.false_eq_true, reduceIte, pyIn_obj, vtry_ok, exOk_bind]
        rfl
    · simp only [Bool.not_eq_true] at hvs
      refine ⟨r, ?_, warnonly_refl r⟩
      simp only [hvs, Bool.false_eq_true, reduceIte]
      rfl

theorem schemaValidator_validate_eq (svd : Json) (serrs : List Models.ValidationError)
    (kvs : List (PyStr × Json)) :
    SchemaValidator.validate svd serrs (Json.obj kvs) =
      (match validateCustomRules (Json.obj kvs)
          (serrs.foldl (fun r e =>
              r.add_error e.message e.path (pys "SCHEMA_VALIDATION_ERROR") none)
            { ValidationResult.fresh true with
              schema_version := (lookupKey (pys "version") kvs).getD svd }) with
       | .ok r => .ok r
       | .error ep => .ok (ep.2.add_error (pys "Schema validation failed: " ++ renderExn ep.1)
           [] (pys "SCHEMA_ERROR") none)) := rfl

theorem validateCustomRules_unfold (kvs effMd : List (PyStr × Json))
    (hEff : (lookupKey (pys "metadata") kvs).getD (Json.obj kvs) = Json.obj effMd)
    (r : ValidationResult) :
    validateCustomRules (Json.obj kvs) r =
      (vcrProjectName (Json.obj kvs) (Json.obj effMd) r >>= fun r1 =>
        vcrGithub (Json.obj kvs) (Json.obj effMd) r1 >>= fun r2 =>
          vcrStructure (Json.obj kvs) r2 >>= fun r3 =>
            vcrVersion (Json.obj kvs) (Json.obj effMd) r3) := by
  unfold validateCustomRules
  rw [pyGet_obj, hEff, vtry_ok, exOk_bind]

/-- C9: custom-rule severities of `SchemaValidator.validate`.  (a) A present
but non-kebab-case `project_name` adds an `INVALID_FORMAT` error and the
result is invalid, whatever the external schema pass reported and whatever
happens later in the rules.  (b) A present `github_username` failing the
identifier pattern adds only a `SUSPICIOUS_FORMAT` warning: on a document
whose other custom checks pass, the errors are exactly the schema-level ones
(the github failure contributes none), so with no schema errors the result
stays valid. -/
theorem c9_custom_rule_severities :
    (∀ (kvs effMd : List (PyStr × Json)) (p : PyStr) (svd : Json)
      (serrs : List Models.ValidationError),
      (lookupKey (pys "metadata") kvs).getD (Json.obj kvs) = Json.obj effMd →
      lookupKey (pys "project_name") effMd = some (Json.str p) →
      p ≠ [] → isValidProjectName p = false →
      ∃ r, SchemaValidator.validate svd serrs (Json.obj kvs) = .ok r ∧
        r.is_valid = false ∧
        (⟨pys "Project name should be lowercase with hyphens (kebab-case)",
          (if (lookupKey (pys "metadata") kvs).isSome then pys "metadata.project_name"
           else pys "project_name"),
          pys "INVALID_FORMAT", none, none⟩ : Models.ValidationError) ∈ r.errors) ∧
    (∀ (kvs effMd : List (PyStr × Json)) (p g : PyStr)
      (skvs mrkvs : List (PyStr × Json)) (svd : Json)
      (serrs : List Models.ValidationError),
      (lookupKey (pys "metadata") kvs).getD (Json.obj kvs) = Json.obj effMd →
      lookupKey (pys "project_name") effMd = some (Json.str p) →
      p ≠ [] → isValidProjectName p = true →
      lookupKey (pys "github_username") effMd = some (Json.str g) →
      g ≠ [] → isValidGithubUsername g = false →
      lookupKey (pys "structure") kvs = some (Json.obj skvs) → skvs ≠ [] →
      lookupKey (pys "meta-repo") skvs = some (Json.obj mrkvs) →
      (lookupKey (pys "version") effMd = none ∨
        ∃ vs, lookupKey (pys "version") effMd = some (Json.str vs)) →
      ∃ r, SchemaValidator.validate svd serrs (Json.obj kvs) = .ok r ∧
        (⟨pys "GitHub username format may be invalid",
          (if (lookupKey (pys "metadata") kvs).isSome then pys "metadata.github_username"
           else pys "github_username"),
          pys "SUSPICIOUS_FORMAT", none, none⟩ : Models.ValidationError) ∈ r.warnings ∧
        r.errors = serrs.map (fun e =>
          ⟨e.message, e.path, pys "SCHEMA_VALIDATION_ERROR", none, none⟩) ∧
        (serrs = [] → r.is_valid = true)) := by
  constructor
  · intro kvs effMd p svd serrs hEff hpn hp hbad
    have hvcr := validateCustomRules_unfold kvs effMd hEff
      (serrs.foldl (fun (r : ValidationResult) e =>
          r.add_error e.message e.path (pys "SCHEMA_VALIDATION_ERROR") none)
        { ValidationResult.fresh true with
          schema_version := (lookupKey (pys "version") kvs).getD svd })
    rw [vcrProjectName_error kvs effMd p hpn hp hbad, exOk_bind] at hvcr
    have htail := revolves_vcr_tail (Json.obj kvs) (Json.obj effMd)
      ((serrs.foldl (fun (r : ValidationResult) e =>
          r.add_error e.message e.path (pys "SCHEMA_VALIDATION_ERROR") none)
        { ValidationResult.fresh true with
          schema_version := (lookupKey (pys "version") kvs).getD svd }).add_error
        (pys "Project name should be lowercase with hyphens (kebab-case)")
        (if (lookupKey (pys "metadata") kvs).isSome then pys "metadata.project_name"
         else pys "project_name") (pys "INVALID_FORMAT") none)
    have hmemE : (⟨pys "Project name should be lowercase with hyphens (kebab-case)",
        (if (lookupKey (pys "metadata") kvs).isSome then pys "metadata.project_name"
         else pys "project_name"),
        pys "INVALID_FORMAT", none, none⟩ : Models.ValidationError) ∈
        ((serrs.foldl (fun (r : ValidationResult) e =>
            r.add_error e.message e.path (pys "SCHEMA_VALIDATION_ERROR") none)
          { ValidationResult.fresh true with
            schema_version := (lookupKey (pys "version") kvs).getD svd }).add_error
          (pys "Project name should be lowercase with hyphens (kebab-case)")
          (if (lookupKey (pys "metadata") kvs).isSome then pys "metadata.project_name"
           else pys "project_name") (pys "INVALID_FORMAT") none).errors := by
      simp [ValidationResult.add_error]
    rcases hres : (vcrGithub (Json.obj kvs) (Json.obj effMd)
        ((serrs.foldl (fun (r : ValidationResult) e =>
            r.add_error e.message e.path (pys "SCHEMA_VALIDATION_ERROR") none)
          { ValidationResult.fresh true with
            schema_version := (lookupKey (pys "version") kvs).getD svd }).add_error
          (pys "Project name should be lowercase with hyphens (kebab-case)")
          (if (lookupKey (pys "metadata") kvs).isSome then pys "metadata.project_name"
           else pys "project_name") (pys "INVALID_FORMAT") none) >>= fun r1 =>
        vcrStructure (Json.obj kvs) r1 >>= fun r2 =>
          vcrVersion (Json.obj kvs) (Json.obj effMd) r2) with ep | rOk
    · rw [hres] at hvcr htail
      refine ⟨ep.2.add_error (pys "Schema validation failed: " ++ renderExn ep.1) []
        (pys "SCHEMA_ERROR") none, ?_, rfl, ?_⟩
      · rw [schemaValidator_validate_eq, hvcr]
      · have hm := mem_errors_of_evolves htail hmemE
        exact List.mem_append_left _ hm
    · rw [hres] at hvcr htail
      simp only [REvolves, resOf_ok] at htail
      refine ⟨rOk, ?_, ?_, mem_errors_of_evolves htail hmemE⟩
      · rw [schemaValidator_validate_eq, hvcr]
      · exact htail.2 rfl
  · intro kvs effMd p g skvs mrkvs svd serrs hEff hpn hp hpv hgu hg hgbad hst hne hmr hver
    have hvcr := validateCustomRules_unfold kvs effMd hEff
      (serrs.foldl (fun (r : ValidationResult) e =>
          r.add_error e.message e.path (pys "SCHEMA_VALIDATION_ERROR") none)
        { ValidationResult.fresh true with
          schema_version := (lookupKey (pys "version") kvs).getD svd })
    rw [vcrProjectName_pass kvs effMd p hpn hp hpv, exOk_bind] at hvcr
    rw [vcrGithub_warns kvs effMd g hgu hg hgbad, exOk_bind] at hvcr
    obtain ⟨r3, h3, hw3⟩ := vcrStructure_ok kvs skvs mrkvs hst hne hmr
      ((serrs.foldl (fun (r : ValidationResult) e =>
          r.add_error e.message e.path (pys "SCHEMA_VALIDATION_ERROR") none)
        { ValidationResult.fresh true with
          schema_version := (lookupKey (pys "version") kvs).getD svd }).add_warning
        (pys "GitHub username format may be invalid")
        (if (lookupKey (pys "metadata") kvs).isSome then pys "metadata.github_username"
         else pys "github_username") (pys "SUSPICIOUS_FORMAT") none)
    rw [h3, exOk_bind] at hvcr
    obtain ⟨r4, h4, hw4⟩ := vcrVersion_ok kvs effMd hver r3
    rw [h4] at hvcr
    obtain ⟨hsp1, hsp2, hsp3, hsp4⟩ := schemaErrors_foldl_spec serrs
      { ValidationResult.fresh true with
        schema_version := (lookupKey (pys "version") kvs).getD svd }
    have hwAll := warnonly_trans hw3 hw4
    obtain ⟨hwErr, hwVal, lw, hwWarn⟩ := hwAll
    refine ⟨r4, ?_, ?_, ?_, ?_⟩
    · rw [schemaValidator_validate_eq, hvcr]
    · rw [hwWarn]
      simp [ValidationResult.add_warning]
    · rw [hwErr]
      simp only [ValidationResult.add_warning] at hsp1 ⊢
      rw [hsp1]
      simp [ValidationResult.fresh]
    · intro hserrs
      rw [hwVal]
      simp only [ValidationResult.add_warning] at hsp4 ⊢
      rw [hsp4]
      simp [hserrs, ValidationResult.fresh]

/-- A v1 document with a non-kebab-case project name. -/
def c9docA : List (PyStr × Json) := [(pys "project_name", Json.str (pys "Bad_Name"))]

/-- A v1 document whose only flaw is a github username failing the
identifier pattern. -/
def c9docB : List (PyStr × Json) :=
  [(pys "project_name", Json.str (pys "good-name")),
   (pys "github_username", Json.str (pys "-bad-")),
   (pys "structure", Json.obj [(pys "meta-repo", Json.obj [])])]

/-- Witness for C9 at two concrete documents. -/
theorem c9_custom_rule_severities_witness :
    (∃ r, SchemaValidator.validate Json.null [] (Json.obj c9docA) = .ok r ∧
      r.is_valid = false ∧
      (⟨pys "Project name should be lowercase with hyphens (kebab-case)",
        (if (lookupKey (pys "metadata") c9docA).isSome then pys "metadata.project_name"
         else pys "project_name"), pys "INVALID_FORMAT", none, none⟩ :
        Models.ValidationError) ∈ r.errors) ∧
    (∃ r, SchemaValidator.validate Json.null [] (Json.obj c9docB) = .ok r ∧
      (⟨pys "GitHub username format may be invalid",
        (if (lookupKey (pys "metadata") c9docB).isSome then pys "metadata.github_username"
         else pys "github_username"), pys "SUSPICIOUS_FORMAT", none, none⟩ :
        Models.ValidationError) ∈ r.warnings ∧
      r.errors = [] ∧ r.is_valid = true) := by
  constructor
  · exact c9_custom_rule_severities.1 c9docA c9docA (pys "Bad_Name") Json.null []
      rfl rfl (by decide) rfl
  · obtain ⟨r, h1, h2, h3, h4⟩ := c9_custom_rule_severities.2 c9docB c9docB
      (pys "good-name") (pys "-bad-") [(pys "meta-repo", Json.obj [])] [] Json.null []
      rfl rfl (by decide) rfl rfl (by decide) rfl rfl (List.cons_ne_nil _ _) rfl
      (Or.inl rfl)
    exact ⟨r, h1, h2, by simpa using h3, h4 rfl⟩

/-! ## C3: round-trip facts about the fallback validation -/

theorem invmono_vbMissingMetaField (c : Json) (r r' : ValidationResult) (f : PyStr)
    (h : vbMissingMetaField c r f = .ok r') (hr : r.is_valid = false) :
    r'.is_valid = false := by
  unfold vbMissingMetaField at h
  rcases hin : pyIn f c with e | b
  · rw [hin] at h
    exact absurd h (by simp)
  · rw [hin, exOk_bind] at h
    by_cases hb : b = true
    · subst hb
      simp only [reduceIte] at h
      injection h with h
      rw [← h]
      exact hr
    · simp only [Bool.not_eq_true] at hb
      subst hb
      simp only [Bool.false_eq_true, reduceIte] at h
      injection h with h
      rw [← h]
      rfl

theorem invmono_vbMissingField (c : Json) (r r' : ValidationResult) (f : PyStr)
    (h : vbMissingField c r f = .ok r') (hr : r.is_valid = false) :
    r'.is_valid = false := by
  unfold vbMissingField at h
  rcases hin : pyIn f c with e | b
  · rw [hin] at h
    exact absurd h (by simp)
  · rw [hin, exOk_bind] at h
    by_cases hb : b = true
    · subst hb
      simp only [reduceIte] at h
      injection h with h
      rw [← h]
      exact hr
    · simp only [Bool.not_eq_true] at hb
      subst hb
      simp only [Bool.false_eq_true, reduceIte] at h
      injection h with h
      rw [← h]
      rfl

theorem invmono_foldlM (c : Json)
    (step : Json → ValidationResult → PyStr → Except Exn ValidationResult)
    (hstep : ∀ r r' f, step c r f = .ok r' → r.is_valid = false → r'.is_valid = false)
    (fields : List PyStr) (r r' : ValidationResult)
    (h : fields.foldlM (step c) r = .ok r') (hr : r.is_valid = false) :
    r'.is_valid = false := by
  induction fields generalizing r with
  | nil =>
    simp only [List.foldlM_nil] at h
    injection h with h
    rw [← h]
    exact hr
  | cons f fs ih =>
    rw [List.foldlM_cons] at h
    rcases hs : step c r f with e | r1
    · rw [hs] at h
      exact absurd h (by simp)
    · rw [hs, exOk_bind] at h
      exact ih r1 h (hstep r r1 f hs hr)

theorem invmono_vbTypeCheck (c : Json) (f msg path : PyStr) (r r' : ValidationResult)
    (h : vbTypeCheck c f msg path r = .ok r') (hr : r.is_valid = false) :
    r'.is_valid = false := by
  unfold vbTypeCheck at h
  rcases hin : pyIn f c with e | b
  · rw [hin] at h
    exact absurd h (by simp)
  · rw [hin, exOk_bind] at h
    by_cases hb : b = true
    · subst hb
      simp only [reduceIte] at h
      rcases hgi : pyGetItem c f with e | v
      · rw [hgi] at h
        exact absurd h (by simp)
      · rw [hgi, exOk_bind] at h
        injection h with h
        rw [← h]
        by_cases hv : isStr v = true
        · simp only [hv, reduceIte]
          exact hr
        · simp only [Bool.not_eq_true] at hv
          simp only [hv, Bool.false_eq_true, reduceIte]
          rfl
    · simp only [Bool.not_eq_true] at hb
      subst hb
      simp only [Bool.false_eq_true, reduceIte] at h
      injection h with h
      rw [← h]
      exact hr

theorem invmono_vbV2 (c : Json) (r r' : ValidationResult)
    (h : vbV2 c r = .ok r') (hr : r.is_valid = false) : r'.is_valid = false := by
  unfold vbV2 at h
  rcases h1 : vbMissingMetaFields c
      [pys "project_name", pys "github_username", pys "version", pys "schema_version"] r
    with e | r1
  · rw [h1] at h
    exact absurd h (by simp)
  · rw [h1, exOk_bind] at h
    have hinv1 := invmono_foldlM c vbMissingMetaField (invmono_vbMissingMetaField c) _ r r1 h1 hr
    rcases h2 : vbTypeCheck c (pys "project_name") (pys "project_name must be a string")
        (pys "metadata.project_name") r1 with e | r2
    · rw [h2] at h
      exact absurd h (by simp)
    · rw [h2, exOk_bind] at h
      have hinv2 := invmono_vbTypeCheck _ _ _ _ _ _ h2 hinv1
      rcases h3 : vbTypeCheck c (pys "github_username")
          (pys "github_username must be a string") (pys "metadata.github_username") r2
        with e | r3
      · rw [h3] at h
        exact absurd h (by simp)
      · rw [h3, exOk_bind] at h
        have hinv3 := invmono_vbTypeCheck _ _ _ _ _ _ h3 hinv2
        exact invmono_vbTypeCheck _ _ _ _ _ _ h hinv3

theorem invmono_vbV1 (c : Json) (r r' : ValidationResult)
    (h : vbV1 c r = .ok r') (hr : r.is_valid = false) : r'.is_valid = false := by
  unfold vbV1 at h
  rcases h1 : [pys "project_name", pys "github_username", pys "version",
      pys "structure"].foldlM (vbMissingField c) r with e | r1
  · rw [h1] at h
    exact absurd h (by simp)
  · rw [h1, exOk_bind] at h
    have hinv1 := invmono_foldlM c vbMissingField (invmono_vbMissingField c) _ r r1 h1 hr
    rcases h2 : vbTypeCheck c (pys "project_name") (pys "project_name must be a string")
        (pys "project_name") r1 with e | r2
    · rw [h2] at h
      exact absurd h (by simp)
    · rw [h2, exOk_bind] at h
      have hinv2 := invmono_vbTypeCheck _ _ _ _ _ _ h2 hinv1
      rcases h3 : vbTypeCheck c (pys "github_username")
          (pys "github_username must be a string") (pys "github_username") r2 with e | r3
      · rw [h3] at h
        exact absurd h (by simp)
      · rw [h3, exOk_bind] at h
        have hinv3 := invmono_vbTypeCheck _ _ _ _ _ _ h3 hinv2
        exact invmono_vbTypeCheck _ _ _ _ _ _ h hinv3

theorem invmono_vbStructureChecks (c : Json) (r r' : ValidationResult)
    (h : vbStructureChecks c r = .ok r') (hr : r.is_valid = false) :
    r'.is_valid = false := by
  unfold vbStructureChecks at h
  rcases hin : pyIn (pys "structure") c with e | b
  · rw [hin] at h
    exact absurd h (by simp)
  · rw [hin, exOk_bind] at h
    have hmid : ∀ r1 : ValidationResult, r1.is_valid = false →
        ∀ hmid2 : (do
          let st ← pyGet c (pys "structure") (Json.obj [])
          pure (if pyTruthy st then r1
            else r1.add_error (pys "Structure cannot be empty") (pys "structure")
              (pys "EMPTY_STRUCTURE") none) : Except Exn ValidationResult) = .ok r',
        r'.is_valid = false := by
      intro r1 hr1 hmid2
      rcases hg : pyGet c (pys "structure") (Json.obj []) with e | st
      · rw [hg] at hmid2
        exact absurd hmid2 (by simp)
      · rw [hg, exOk_bind] at hmid2
        injection hmid2 with hmid2
        rw [← hmid2]
        by_cases hst : pyTruthy st = true
        · simp only [hst, reduceIte]
          exact hr1
        · simp only [Bool.not_eq_true] at hst
          simp only [hst, Bool.false_eq_true, reduceIte]
          rfl
    by_cases hb : b = false
    · subst hb
      simp only [Bool.false_eq_true, reduceIte, exPure_bind] at h
      exact hmid _ rfl h
    · simp only [Bool.not_eq_false] at hb
      subst hb
      simp only [reduceIte] at h
      rcases hgi : pyGetItem c (pys "structure") with e | v
      · rw [hgi] at h
        exact absurd h (by simp)
      · rw [hgi, exOk_bind, exPure_bind] at h
        refine hmid _ ?_ h
        by_cases hv : isDict v = true
        · simp only [hv, reduceIte]
          exact hr
        · simp only [Bool.not_eq_true] at hv
          simp only [hv, Bool.false_eq_true, reduceIte]
          rfl

theorem vbMissingMetaField_notin (c : Json) (f : PyStr) (hin : pyIn f c = .ok false)
    (r : ValidationResult) :
    vbMissingMetaField c r f = .ok (r.add_error
      (pys "Required metadata field " ++ apos ++ f ++ apos ++ pys " is missing")
      (pys "metadata." ++ f) (pys "MISSING_FIELD") none) := by
  unfold vbMissingMetaField
  rw [hin, exOk_bind]
  simp only [Bool.false_eq_true, reduceIte]
  rfl

theorem vbMissingField_notin (c : Json) (f : PyStr) (hin : pyIn f c = .ok false)
    (r : ValidationResult) :
    vbMissingField c r f = .ok (r.add_error
      (pys "Required field " ++ apos ++ f ++ apos ++ pys " is missing") f
      (pys "MISSING_FIELD") none) := by
  unfold vbMissingField
  rw [hin, exOk_bind]
  simp only [Bool.false_eq_true, reduceIte]
  rfl

theorem foldlM_invalid_of_missing (c : Json)
    (step : Json → ValidationResult → PyStr → Except Exn ValidationResult)
    (hmono : ∀ r r' f, step c r f = .ok r' → r.is_valid = false → r'.is_valid = false)
    (f : PyStr) (hbad : ∀ r, ∃ r'', step c r f = .ok r'' ∧ r''.is_valid = false)
    (fields : List PyStr) (hf : f ∈ fields) (r r' : ValidationResult)
    (h : fields.foldlM (step c) r = .ok r') : r'.is_valid = false := by
  induction fields generalizing r with
  | nil => cases hf
  | cons g gs ih =>
    rw [List.foldlM_cons] at h
    rcases hg : step c r g with e | r1
    · rw [hg] at h
      exact absurd h (by simp)
    · rw [hg, exOk_bind] at h
      rcases List.mem_cons.mp hf with hfg | hfs
      · subst hfg
        obtain ⟨r'', h'', hinv''⟩ := hbad r
        rw [h''] at hg
        injection hg with hg
        rw [hg] at hinv''
        exact invmono_foldlM c step hmono gs r1 r' h hinv''
      · exact ih hfs r1 h

theorem vbTypeCheck_invalid_of_nonstr (m : List (PyStr × Json)) (f msg path : PyStr)
    (v : Json) (hl : lookupKey f m = some v) (hv : isStr v = false)
    (r r' : ValidationResult) (h : vbTypeCheck (Json.obj m) f msg path r = .ok r') :
    r'.is_valid = false := by
  unfold vbTypeCheck at h
  rw [pyIn_obj, hl, exOk_bind] at h
  simp only [Option.isSome_some, reduceIte] at h
  rw [pyGetItem_obj_some hl, exOk_bind] at h
  rw [hv] at h
  simp only [Bool.false_eq_true, reduceIte] at h
  injection h with h
  rw [← h]
  rfl

theorem valid_back_vbTypeCheck (c : Json) (f msg path : PyStr) (r r' : ValidationResult)
    (h : vbTypeCheck c f msg path r = .ok r') (hval : r'.is_valid = true) :
    r.is_valid = true := by
  by_cases hr : r.is_valid = true
  · exact hr
  · simp only [Bool.not_eq_true] at hr
    rw [invmono_vbTypeCheck c f msg path r r' h hr] at hval
    cases hval

theorem valid_back_vbStructureChecks (c : Json) (r r' : ValidationResult)
    (h : vbStructureChecks c r = .ok r') (hval : r'.is_valid = true) :
    r.is_valid = true := by
  by_cases hr : r.is_valid = true
  · exact hr
  · simp only [Bool.not_eq_true] at hr
    rw [invmono_vbStructureChecks c r r' h hr] at hval
    cases hval

@[simp]
theorem pyIn_str (needle s : PyStr) :
    pyIn needle (Json.str s) = .ok (pySubstr needle s) := rfl

@[simp]
theorem pyIn_arr (needle : PyStr) (l : List Json) :
    pyIn needle (Json.arr l) = .ok (l.any (fun x => jsonEqStr x needle)) := rfl

@[simp]
theorem pyGetItem_str (s k : PyStr) :
    pyGetItem (Json.str s) k = .error Exn.typeError := rfl

@[simp]
theorem pyGetItem_arr (l : List Json) (k : PyStr) :
    pyGetItem (Json.arr l) k = .error Exn.typeError := rfl

@[simp]
theorem pyGet_str (s k : PyStr) (d : Json) :
    pyGet (Json.str s) k d = .error Exn.attributeError := rfl

@[simp]
theorem pyGet_arr (l : List Json) (k : PyStr) (d : Json) :
    pyGet (Json.arr l) k d = .error Exn.attributeError := rfl

theorem vbV2_decomp (c : Json) (r0 r1 : ValidationResult) (h : vbV2 c r0 = .ok r1) :
    ∃ rA rB rC, vbMissingMetaFields c
        [pys "project_name", pys "github_username", pys "version", pys "schema_version"] r0 =
        .ok rA ∧
      vbTypeCheck c (pys "project_name") (pys "project_name must be a string")
        (pys "metadata.project_name") rA = .ok rB ∧
      vbTypeCheck c (pys "github_username") (pys "github_username must be a string")
        (pys "metadata.github_username") rB = .ok rC ∧
      vbTypeCheck c (pys "version") (pys "version must be a string")
        (pys "metadata.version") rC = .ok r1 := by
  unfold vbV2 at h
  rcases hL : vbMissingMetaFields c
      [pys "project_name", pys "github_username", pys "version", pys "schema_version"] r0
    with e | rA
  · rw [hL] at h
    exact absurd h (by simp)
  · rw [hL, exOk_bind] at h
    rcases h1 : vbTypeCheck c (pys "project_name") (pys "project_name must be a string")
        (pys "metadata.project_name") rA with e | rB
    · rw [h1] at h
      exact absurd h (by simp)
    · rw [h1, exOk_bind] at h
      rcases h2 : vbTypeCheck c (pys "github_username")
          (pys "github_username must be a string") (pys "metadata.github_username") rB
        with e | rC
      · rw [h2] at h
        exact absurd h (by simp)
      · rw [h2, exOk_bind] at h
        exact ⟨rA, rB, rC, rfl, h1, h2, h⟩

theorem vbV1_decomp (c : Json) (r0 r1 : ValidationResult) (h : vbV1 c r0 = .ok r1) :
    ∃ rA rB rC, [pys "project_name", pys "github_username", pys "version",
        pys "structure"].foldlM (vbMissingField c) r0 = .ok rA ∧
      vbTypeCheck c (pys "project_name") (pys "project_name must be a string")
        (pys "project_name") rA = .ok rB ∧
      vbTypeCheck c (pys "github_username") (pys "github_username must be a string")
        (pys "github_username") rB = .ok rC ∧
      vbTypeCheck c (pys "version") (pys "version must be a string") (pys "version") rC =
        .ok r1 := by
  unfold vbV1 at h
  rcases hL : [pys "project_name", pys "github_username", pys "version",
      pys "structure"].foldlM (vbMissingField c) r0 with e | rA
  · rw [hL] at h
    exact absurd h (by simp)
  · rw [hL, exOk_bind] at h
    rcases h1 : vbTypeCheck c (pys "project_name") (pys "project_name must be a string")
        (pys "project_name") rA with e | rB
    · rw [h1] at h
      exact absurd h (by simp)
    · rw [h1, exOk_bind] at h
      rcases h2 : vbTypeCheck c (pys "github_username")
          (pys "github_username must be a string") (pys "github_username") rB with e | rC
      · rw [h2] at h
        exact absurd h (by simp)
      · rw [h2, exOk_bind] at h
        exact ⟨rA, rB, rC, rfl, h1, h2, h⟩

theorem vbV2_container_invalid (v : Json)
    (hin : ∀ n : PyStr, ∃ b, pyIn n v = .ok b)
    (hgi : ∀ k : PyStr, pyGetItem v k = .error Exn.typeError)
    (r0 r1 : ValidationResult) (h : vbV2 v r0 = .ok r1) : r1.is_valid = false := by
  obtain ⟨rA, rB, rC, hL, hT1, hT2, hT3⟩ := vbV2_decomp v r0 r1 h
  obtain ⟨b, hb⟩ := hin (pys "project_name")
  by_cases hbt : b = true
  · subst hbt
    unfold vbTypeCheck at hT1
    rw [hb, exOk_bind] at hT1
    simp only [reduceIte] at hT1
    rw [hgi (pys "project_name")] at hT1
    exact absurd hT1 (by simp)
  · simp only [Bool.not_eq_true] at hbt
    subst hbt
    have hbadf : ∀ r, ∃ r'', vbMissingMetaField v r (pys "project_name") = .ok r'' ∧
        r''.is_valid = false :=
      fun r => ⟨_, vbMissingMetaField_notin v _ hb r, rfl⟩
    have hinvA : rA.is_valid = false :=
      foldlM_invalid_of_missing v vbMissingMetaField (invmono_vbMissingMetaField v)
        (pys "project_name") hbadf _ (List.mem_cons_self _ _) r0 rA hL
    exact invmono_vbTypeCheck _ _ _ _ _ _ hT3
      (invmono_vbTypeCheck _ _ _ _ _ _ hT2 (invmono_vbTypeCheck _ _ _ _ _ _ hT1 hinvA))

theorem vbV2_nonobj_invalid (v : Json) (hv : isDict v = false)
    (r0 r1 : ValidationResult) (h : vbV2 v r0 = .ok r1) : r1.is_valid = false := by
  cases v with
  | obj kvs => cases hv
  | null => exact Except.noConfusion (show (Except.error Exn.typeError :
      Except Exn ValidationResult) = .ok r1 from h)
  | bool b => exact Except.noConfusion (show (Except.error Exn.typeError :
      Except Exn ValidationResult) = .ok r1 from h)
  | num n => exact Except.noConfusion (show (Except.error Exn.typeError :
      Except Exn ValidationResult) = .ok r1 from h)
  | str s =>
    exact vbV2_container_invalid (Json.str s) (fun n => ⟨_, rfl⟩) (fun k => rfl) r0 r1 h
  | arr l =>
    exact vbV2_container_invalid (Json.arr l) (fun n => ⟨_, rfl⟩) (fun k => rfl) r0 r1 h

theorem vbStructureChecks_container_err (j : Json)
    (hin : ∀ n : PyStr, ∃ b, pyIn n j = .ok b)
    (hgi : ∀ k : PyStr, pyGetItem j k = .error Exn.typeError)
    (hget : ∀ (k : PyStr) (d : Json), pyGet j k d = .error Exn.attributeError)
    (r r' : ValidationResult) : vbStructureChecks j r ≠ .ok r' := by
  intro h
  obtain ⟨b, hb⟩ := hin (pys "structure")
  unfold vbStructureChecks at h
  rw [hb, exOk_bind] at h
  by_cases hbt : b = true
  · subst hbt
    simp only [Bool.true_eq_false, reduceIte] at h
    rw [hgi (pys "structure")] at h
    simp at h
  · simp only [Bool.not_eq_true] at hbt
    subst hbt
    simp only [reduceIte, exPure_bind] at h
    rw [hget (pys "structure") (Json.obj [])] at h
    simp at h

theorem validateBasicStructure_ok_obj (doc : Json) (r : ValidationResult)
    (h : StructureParser.validateBasicStructure doc = .ok r) :
    ∃ kvs, doc = Json.obj kvs := by
  cases doc with
  | obj kvs => exact ⟨kvs, rfl⟩
  | null => exact Except.noConfusion (show (Except.error Exn.typeError :
      Except Exn ValidationResult) = .ok r from h)
  | bool b => exact Except.noConfusion (show (Except.error Exn.typeError :
      Except Exn ValidationResult) = .ok r from h)
  | num n => exact Except.noConfusion (show (Except.error Exn.typeError :
      Except Exn ValidationResult) = .ok r from h)
  | str s =>
    exfalso
    unfold StructureParser.validateBasicStructure at h
    rw [pyIn_str, exOk_bind] at h
    by_cases hb : pySubstr (pys "metadata") s = true
    · simp only [hb, reduceIte] at h
      rw [pyGetItem_str] at h
      simp at h
    · simp only [Bool.not_eq_true] at hb
      simp only [hb, Bool.false_eq_true, reduceIte] at h
      rcases hv1 : vbV1 (Json.str s) (ValidationResult.fresh true) with e | r1
      · rw [hv1] at h
        simp at h
      · rw [hv1, exOk_bind] at h
        exact vbStructureChecks_container_err (Json.str s) (fun n => ⟨_, rfl⟩)
          (fun k => rfl) (fun k d => rfl) r1 r h
  | arr l =>
    exfalso
    unfold StructureParser.validateBasicStructure at h
    rw [pyIn_arr, exOk_bind] at h
    by_cases hb : l.any (fun x => jsonEqStr x (pys "metadata")) = true
    · simp only [hb, reduceIte] at h
      rw [pyGetItem_arr] at h
      simp at h
    · simp only [Bool.not_eq_true] at hb
      simp only [hb, Bool.false_eq_true, reduceIte] at h
      rcases hv1 : vbV1 (Json.arr l) (ValidationResult.fresh true) with e | r1
      · rw [hv1] at h
        simp at h
      · rw [hv1, exOk_bind] at h
        exact vbStructureChecks_container_err (Json.arr l) (fun n => ⟨_, rfl⟩)
          (fun k => rfl) (fun k d => rfl) r1 r h

theorem vbV1_valid_facts (kvs : List (PyStr × Json)) (r0 r1 : ValidationResult)
    (h : vbV1 (Json.obj kvs) r0 = .ok r1) (hval : r1.is_valid = true) :
    (∃ ps, lookupKey (pys "project_name") kvs = some (Json.str ps)) ∧
    (∃ gs, lookupKey (pys "github_username") kvs = some (Json.str gs)) ∧
    (∃ vs, lookupKey (pys "version") kvs = some (Json.str vs)) := by
  obtain ⟨rA, rB, rC, hL, h1, h2, h3⟩ := vbV1_decomp _ _ _ h
  have hvC := valid_back_vbTypeCheck _ _ _ _ _ _ h3 hval
  have hvB := valid_back_vbTypeCheck _ _ _ _ _ _ h2 hvC
  have hvA := valid_back_vbTypeCheck _ _ _ _ _ _ h1 hvB
  have hmiss : ∀ f : PyStr, f ∈ [pys "project_name", pys "github_username", pys "version",
      pys "structure"] → lookupKey f kvs = none → False := by
    intro f hfmem hl
    have hbadf : ∀ r, ∃ r'', vbMissingField (Json.obj kvs) r f = .ok r'' ∧
        r''.is_valid = false :=
      fun r => ⟨_, vbMissingField_notin _ _ (by rw [pyIn_obj, hl]; rfl) r, rfl⟩
    have hinv := foldlM_invalid_of_missing (Json.obj kvs) vbMissingField
      (invmono_vbMissingField _) f hbadf _ hfmem r0 rA hL
    rw [hinv] at hvA
    cases hvA
  refine ⟨?_, ?_, ?_⟩
  · rcases hl : lookupKey (pys "project_name") kvs with _ | v
    · exact absurd hl (by intro hc; exact hmiss _ (by simp) hc)
    · cases v with
      | str ps => exact ⟨ps, rfl⟩
      | null => rw [vbTypeCheck_invalid_of_nonstr kvs _ _ _ _ hl rfl rA rB h1] at hvB; cases hvB
      | bool b => rw [vbTypeCheck_invalid_of_nonstr kvs _ _ _ _ hl rfl rA rB h1] at hvB; cases hvB
      | num n => rw [vbTypeCheck_invalid_of_nonstr kvs _ _ _ _ hl rfl rA rB h1] at hvB; cases hvB
      | arr l => rw [vbTypeCheck_invalid_of_nonstr kvs _ _ _ _ hl rfl rA rB h1] at hvB; cases hvB
      | obj o => rw [vbTypeCheck_invalid_of_nonstr kvs _ _ _ _ hl rfl rA rB h1] at hvB; cases hvB
  · rcases hl : lookupKey (pys "github_username") kvs with _ | v
    · exact absurd hl (by intro hc; exact hmiss _ (by simp) hc)
    · cases v with
      | str gs => exact ⟨gs, rfl⟩
      | null => rw [vbTypeCheck_invalid_of_nonstr kvs _ _ _ _ hl rfl rB rC h2] at hvC; cases hvC
      | bool b => rw [vbTypeCheck_invalid_of_nonstr kvs _ _ _ _ hl rfl rB rC h2] at hvC; cases hvC
      | num n => rw [vbTypeCheck_invalid_of_nonstr kvs _ _ _ _ hl rfl rB rC h2] at hvC; cases hvC
      | arr l => rw [vbTypeCheck_invalid_of_nonstr kvs _ _ _ _ hl rfl rB rC h2] at hvC; cases hvC
      | obj o => rw [vbTypeCheck_invalid_of_nonstr kvs _ _ _ _ hl rfl rB rC h2] at hvC; cases hvC
  · rcases hl : lookupKey (pys "version") kvs with _ | v
    · exact absurd hl (by intro hc; exact hmiss _ (by simp) hc)
    · cases v with
      | str vs => exact ⟨vs, rfl⟩
      | null => rw [vbTypeCheck_invalid_of_nonstr kvs _ _ _ _ hl rfl rC r1 h3] at hval; cases hval
      | bool b => rw [vbTypeCheck_invalid_of_nonstr kvs _ _ _ _ hl rfl rC r1 h3] at hval; cases hval
      | num n => rw [vbTypeCheck_invalid_of_nonstr kvs _ _ _ _ hl rfl rC r1 h3] at hval; cases hval
      | arr l => rw [vbTypeCheck_invalid_of_nonstr kvs _ _ _ _ hl rfl rC r1 h3] at hval; cases hval
      | obj o => rw [vbTypeCheck_invalid_of_nonstr kvs _ _ _ _ hl rfl rC r1 h3] at hval; cases hval

theorem vbV2_valid_facts (m : List (PyStr × Json)) (r0 r1 : ValidationResult)
    (h : vbV2 (Json.obj m) r0 = .ok r1) (hval : r1.is_valid = true) :
    (∃ ps, lookupKey (pys "project_name") m = some (Json.str ps)) ∧
    (∃ gs, lookupKey (pys "github_username") m = some (Json.str gs)) ∧
    (∃ vs, lookupKey (pys "version") m = some (Json.str vs)) := by
  obtain ⟨rA, rB, rC, hL, h1, h2, h3⟩ := vbV2_decomp _ _ _ h
  have hvC := valid_back_vbTypeCheck _ _ _ _ _ _ h3 hval
  have hvB := valid_back_vbTypeCheck _ _ _ _ _ _ h2 hvC
  have hvA := valid_back_vbTypeCheck _ _ _ _ _ _ h1 hvB
  have hmiss : ∀ f : PyStr, f ∈ [pys "project_name", pys "github_username", pys "version",
      pys "schema_version"] → lookupKey f m = none → False := by
    intro f hfmem hl
    have hbadf : ∀ r, ∃ r'', vbMissingMetaField (Json.obj m) r f = .ok r'' ∧
        r''.is_valid = false :=
      fun r => ⟨_, vbMissingMetaField_notin _ _ (by rw [pyIn_obj, hl]; rfl) r, rfl⟩
    have hinv := foldlM_invalid_of_missing (Json.obj m) vbMissingMetaField
      (invmono_vbMissingMetaField _) f hbadf _ hfmem r0 rA hL
    rw [hinv] at hvA
    cases hvA
  refine ⟨?_, ?_, ?_⟩
  · rcases hl : lookupKey (pys "project_name") m with _ | v
    · exact absurd hl (by intro hc; exact hmiss _ (by simp) hc)
    · cases v with
      | str ps => exact ⟨ps, rfl⟩
      | null => rw [vbTypeCheck_invalid_of_nonstr m _ _ _ _ hl rfl rA rB h1] at hvB; cases hvB
      | bool b => rw [vbTypeCheck_invalid_of_nonstr m _ _ _ _ hl rfl rA rB h1] at hvB; cases hvB
      | num n => rw [vbTypeCheck_invalid_of_nonstr m _ _ _ _ hl rfl rA rB h1] at hvB; cases hvB
      | arr l => rw [vbTypeCheck_invalid_of_nonstr m _ _ _ _ hl rfl rA rB h1] at hvB; cases hvB
      | obj o => rw [vbTypeCheck_invalid_of_nonstr m _ _ _ _ hl rfl rA rB h1] at hvB; cases hvB
  · rcases hl : lookupKey (pys "github_username") m with _ | v
    · exact absurd hl (by intro hc; exact hmiss _ (by simp) hc)
    · cases v with
      | str gs => exact ⟨gs, rfl⟩
      | null => rw [vbTypeCheck_invalid_of_nonstr m _ _ _ _ hl rfl rB rC h2] at hvC; cases hvC
      | bool b => rw [vbTypeCheck_invalid_of_nonstr m _ _ _ _ hl rfl rB rC h2] at hvC; cases hvC
      | num n => rw [vbTypeCheck_invalid_of_nonstr m _ _ _ _ hl rfl rB rC h2] at hvC; cases hvC
      | arr l => rw [vbTypeCheck_invalid_of_nonstr m _ _ _ _ hl rfl rB rC h2] at hvC; cases hvC
      | obj o => rw [vbTypeCheck_invalid_of_nonstr m _ _ _ _ hl rfl rB rC h2] at hvC; cases hvC
  · rcases hl : lookupKey (pys "version") m with _ | v
    · exact absurd hl (by intro hc; exact hmiss _ (by simp) hc)
    · cases v with
      | str vs => exact ⟨vs, rfl⟩
      | null => rw [vbTypeCheck_invalid_of_nonstr m _ _ _ _ hl rfl rC r1 h3] at hval; cases hval
      | bool b => rw [vbTypeCheck_invalid_of_nonstr m _ _ _ _ hl rfl rC r1 h3] at hval; cases hval
      | num n => rw [vbTypeCheck_invalid_of_nonstr m _ _ _ _ hl rfl rC r1 h3] at hval; cases hval
      | arr l => rw [vbTypeCheck_invalid_of_nonstr m _ _ _ _ hl rfl rC r1 h3] at hval; cases hval
      | obj o => rw [vbTypeCheck_invalid_of_nonstr m _ _ _ _ hl rfl rC r1 h3] at hval; cases hval

theorem vbStructureChecks_valid_facts (kvs : List (PyStr × Json)) (r0 r1 : ValidationResult)
    (h : vbStructureChecks (Json.obj kvs) r0 = .ok r1) (hval : r1.is_valid = true) :
    ∃ m, lookupKey (pys "structure") kvs = some (Json.obj m) ∧ m ≠ [] := by
  unfold vbStructureChecks at h
  rw [pyIn_obj, exOk_bind] at h
  rcases hl : lookupKey (pys "structure") kvs with _ | v
  · rw [hl] at h
    simp only [Option.isSome_none, Bool.false_eq_true, reduceIte, exPure_bind,
      pyGet_obj, hl, Option.getD_none, exOk_bind] at h
    simp only [pyTruthy, List.isEmpty_nil, Bool.not_true, Bool.false_eq_true,
      reduceIte] at h
    injection h with h
    rw [← h] at hval
    cases hval
  · rw [hl] at h
    simp only [Option.isSome_some, reduceIte] at h
    rw [pyGetItem_obj_some hl, exOk_bind, exPure_bind, pyGet_obj, hl] at h
    simp only [Option.getD_some] at h
    cases v with
    | obj m =>
      rcases m with _ | ⟨mh, mt⟩
      · simp only [isDict, reduceIte, pyTruthy, List.isEmpty_nil, Bool.not_true,
          Bool.false_eq_true] at h
        injection h with h
        rw [← h] at hval
        cases hval
      · exact ⟨mh :: mt, rfl, List.cons_ne_nil _ _⟩
    | null =>
      simp only [isDict, Bool.false_eq_true, reduceIte, pyTruthy] at h
      injection h with h
      rw [← h] at hval
      cases hval
    | bool b =>
      simp only [isDict, Bool.false_eq_true, reduceIte] at h
      injection h with h
      rw [← h] at hval
      by_cases hb : pyTruthy (Json.bool b) = true <;> simp [hb] at hval <;>
        simp [ValidationResult.add_error] at hval
    | num n =>
      simp only [isDict, Bool.false_eq_true, reduceIte] at h
      injection h with h
      rw [← h] at hval
      by_cases hb : pyTruthy (Json.num n) = true <;> simp [hb] at hval <;>
        simp [ValidationResult.add_error] at hval
    | str sv =>
      simp only [isDict, Bool.false_eq_true, reduceIte] at h
      injection h with h
      rw [← h] at hval
      by_cases hb : pyTruthy (Json.str sv) = true <;> simp [hb] at hval <;>
        simp [ValidationResult.add_error] at hval
    | arr l =>
      simp only [isDict, Bool.false_eq_true, reduceIte] at h
      injection h with h
      rw [← h] at hval
      by_cases hb : pyTruthy (Json.arr l) = true <;> simp [hb] at hval <;>
        simp [ValidationResult.add_error] at hval

theorem from_dict_v1 (kvs : List (PyStr × Json))
    (hm : lookupKey (pys "metadata") kvs = none) :
    StructureData.from_dict (Json.obj kvs) =
      .ok ⟨(lookupKey (pys "project_name") kvs).getD (Json.str []),
        (lookupKey (pys "github_username") kvs).getD (Json.str []),
        (lookupKey (pys "created_date") kvs).getD (Json.str []),
        (lookupKey (pys "version") kvs).getD (Json.str []),
        Json.str (pys "1.0"),
        (lookupKey (pys "structure") kvs).getD (Json.obj []),
        (lookupKey (pys "description") kvs).getD Json.null,
        (lookupKey (pys "updated_date") kvs).getD Json.null,
        (lookupKey (pys "template_path") kvs).getD Json.null,
        (lookupKey (pys "tags") kvs).getD (Json.arr [])⟩ := by
  have hIn : pyIn (pys "metadata") (Json.obj kvs) = .ok false := by
    rw [pyIn_obj, hm]; rfl
  simp [StructureData.from_dict, hIn]

theorem from_dict_v2 (kvs m : List (PyStr × Json))
    (hm : lookupKey (pys "metadata") kvs = some (Json.obj m)) :
    StructureData.from_dict (Json.obj kvs) =
      .ok ⟨(lookupKey (pys "project_name") m).getD (Json.str []),
        (lookupKey (pys "github_username") m).getD (Json.str []),
        (lookupKey (pys "created_date") m).getD (Json.str []),
        (lookupKey (pys "version") m).getD (Json.str []),
        (lookupKey (pys "schema_version") m).getD (Json.str (pys "2.0.0")),
        (lookupKey (pys "structure") kvs).getD (Json.obj []),
        (lookupKey (pys "description") m).getD Json.null,
        (lookupKey (pys "updated_date") m).getD Json.null,
        (lookupKey (pys "template_path") m).getD Json.null,
        (lookupKey (pys "tags") m).getD (Json.arr [])⟩ := by
  have hIn : pyIn (pys "metadata") (Json.obj kvs) = .ok true := by
    rw [pyIn_obj, hm]; rfl
  simp [StructureData.from_dict, hIn, pyGetItem_obj_some hm]

theorem parse_ok_facts (hasV : Bool) (svd : Json) (serrs : List Models.ValidationError)
    (doc : Json) (d : StructureData)
    (h : StructureParser.parseData hasV svd serrs doc = .ok d) :
    (∃ ps, d.project_name = Json.str ps) ∧ (∃ gs, d.github_username = Json.str gs) ∧
    (∃ vs, d.version = Json.str vs) ∧ (∃ m, d.structure_ = Json.obj m ∧ m ≠ []) := by
  unfold StructureParser.parseData at h
  rcases hv : StructureParser.validate hasV svd serrs doc with e | r
  · rw [hv] at h
    simp at h
  · rw [hv, exOk_bind] at h
    by_cases hval : r.is_valid = false
    · simp only [hval, reduceIte] at h
      simp at h
    · simp only [Bool.not_eq_false] at hval
      simp only [hval, Bool.true_eq_false, reduceIte] at h
      have hv' : StructureParser.validateBasicStructure doc = .ok r := by
        rw [← c2_validate_never_delegates hasV svd serrs doc]
        exact hv
      obtain ⟨kvs, rfl⟩ := validateBasicStructure_ok_obj doc r hv'
      unfold StructureParser.validateBasicStructure at hv'
      rw [pyIn_obj, exOk_bind] at hv'
      rcases hm : lookupKey (pys "metadata") kvs with _ | v
      · rw [hm] at hv'
        simp only [Option.isSome_none, Bool.false_eq_true, reduceIte] at hv'
        rcases h1 : vbV1 (Json.obj kvs) (ValidationResult.fresh true) with e | r1
        · rw [h1] at hv'
          simp at hv'
        · rw [h1, exOk_bind] at hv'
          have hr1val : r1.is_valid = true := valid_back_vbStructureChecks _ _ _ hv' hval
          obtain ⟨⟨ps, hps⟩, ⟨gs, hgs⟩, ⟨vs, hvs⟩⟩ := vbV1_valid_facts kvs _ r1 h1 hr1val
          obtain ⟨m, hst, hmne⟩ := vbStructureChecks_valid_facts kvs r1 r hv' hval
          rw [from_dict_v1 kvs hm] at h
          injection h with h
          subst h
          refine ⟨⟨ps, ?_⟩, ⟨gs, ?_⟩, ⟨vs, ?_⟩, ⟨m, ?_, hmne⟩⟩ <;>
            simp [hps, hgs, hvs, hst]
      · rw [hm] at hv'
        simp only [Option.isSome_some, reduceIte] at hv'
        rw [pyGetItem_obj_some hm, exOk_bind] at hv'
        rcases h1 : vbV2 v (ValidationResult.fresh true) with e | r1
        · rw [h1] at hv'
          simp at hv'
        · rw [h1, exOk_bind] at hv'
          have hr1val : r1.is_valid = true := valid_back_vbStructureChecks _ _ _ hv' hval
          by_cases hd : isDict v = true
          · cases v with
            | obj mm =>
              obtain ⟨⟨ps, hps⟩, ⟨gs, hgs⟩, ⟨vs, hvs⟩⟩ := vbV2_valid_facts mm _ r1 h1 hr1val
              obtain ⟨m2, hst, hmne⟩ := vbStructureChecks_valid_facts kvs r1 r hv' hval
              rw [from_dict_v2 kvs mm hm] at h
              injection h with h
              subst h
              refine ⟨⟨ps, ?_⟩, ⟨gs, ?_⟩, ⟨vs, ?_⟩, ⟨m2, ?_, hmne⟩⟩ <;>
                simp [hps, hgs, hvs, hst]
            | null => cases hd
            | bool b => cases hd
            | num n => cases hd
            | str s => cases hd
            | arr l => cases hd
          · simp only [Bool.not_eq_true] at hd
            rw [vbV2_nonobj_invalid v hd _ _ h1] at hr1val
            cases hr1val

theorem parse_export (hasV : Bool) (svd : Json) (serrs : List Models.ValidationError)
    (d : StructureData) (ps gs vs : PyStr) (m : List (PyStr × Json))
    (hp : d.project_name = Json.str ps) (hg : d.github_username = Json.str gs)
    (hv : d.version = Json.str vs) (hs : d.structure_ = Json.obj m) (hm : m ≠ []) :
    ∃ d', StructureParser.parseData hasV svd serrs
        (StructureParser.export_structure d) = .ok d' ∧
      d'.project_name = d.project_name ∧ d'.version = d.version ∧
      d'.structure_ = d.structure_ := by
  rcases m with _ | ⟨mh, mt⟩
  · exact absurd rfl hm
  · obtain ⟨pn, gu, cd, ver, sv, st, desc, ud, tp, tags⟩ := d
    simp only at hp hg hv hs
    subst hp
    subst hg
    subst hv
    subst hs
    unfold StructureParser.export_structure
    simp only
    cases h1 : pyTruthy desc <;> cases h2 : pyTruthy tags <;> cases h3 : pyTruthy tp <;>
      simp only [h1, h2, h3, Bool.false_eq_true, reduceIte, List.append_nil,
        List.nil_append, List.cons_append, List.append_assoc] <;>
      exact ⟨_, rfl, rfl, rfl, rfl⟩

/-- C3: round-trip.  For every document that parses successfully (v1 or v2),
exporting the parsed `StructureData` and parsing the exported document again
succeeds and yields a `StructureData` with the same `project_name`,
`version` and `structure` tree. -/
theorem c3_round_trip (hasV : Bool) (svd : Json) (serrs : List Models.ValidationError)
    (doc : Json) (d : StructureData)
    (h : StructureParser.parseData hasV svd serrs doc = .ok d) :
    ∃ d', StructureParser.parseData hasV svd serrs
        (StructureParser.export_structure d) = .ok d' ∧
      d'.project_name = d.project_name ∧ d'.version = d.version ∧
      d'.structure_ = d.structure_ := by
  obtain ⟨⟨ps, hps⟩, ⟨gs, hgs⟩, ⟨vs, hvs⟩, ⟨m, hst, hmne⟩⟩ :=
    parse_ok_facts hasV svd serrs doc d h
  exact parse_export hasV svd serrs d ps gs vs m hps hgs hvs hst hmne

/-- Witness for C3 at a concrete valid v2 document. -/
theorem c3_round_trip_witness :
    ∃ d d', StructureParser.parseData false Json.null []
        (Json.obj [(pys "metadata", Json.obj
          [(pys "project_name", Json.str (pys "demo-project")),
           (pys "github_username", Json.str (pys "demo-user")),
           (pys "version", Json.str (pys "2.0.0")),
           (pys "schema_version", Json.str (pys "2.0.0"))]),
          (pys "structure", Json.obj [(pys "meta-repo", Json.obj [])])]) = .ok d ∧
      StructureParser.parseData false Json.null []
        (StructureParser.export_structure d) = .ok d' ∧
      d'.project_name = d.project_name ∧ d'.version = d.version ∧
      d'.structure_ = d.structure_ := by
  have hparse : StructureParser.parseData false Json.null []
      (Json.obj [(pys "metadata", Json.obj
        [(pys "project_name", Json.str (pys "demo-project")),
         (pys "github_username", Json.str (pys "demo-user")),
         (pys "version", Json.str (pys "2.0.0")),
         (pys "schema_version", Json.str (pys "2.0.0"))]),
        (pys "structure", Json.obj [(pys "meta-repo", Json.obj [])])]) =
      .ok ⟨Json.str (pys "demo-project"), Json.str (pys "demo-user"), Json.str [],
        Json.str (pys "2.0.0"), Json.str (pys "2.0.0"),
        Json.obj [(pys "meta-repo", Json.obj [])], Json.null, Json.null, Json.null,
        Json.arr []⟩ := rfl
  obtain ⟨d', hd', h1, h2, h3⟩ := c3_round_trip false Json.null [] _ _ hparse
  exact ⟨_, d', hparse, hd', h1, h2, h3⟩

/-! ## structure_sync.py -/

/-- structure_sync.FileTemplate.  `__post_init__` fills a missing `checksum`
with the md5 hex digest of `content` (external `hashlib`) and a missing
`last_updated` with the current time; the claims below only handle templates
whose fields are already populated, so the external hash and clock are not
modelled. -/
structure FileTemplate where
  path : PyStr
  content : PyStr
  template_vars : Json
  checksum : Option PyStr
  last_updated : Option PyStr

/-- structure_sync.DirectoryStructure. -/
structure DirectoryStructure where
  name : PyStr
  path : PyStr
  subdirs : List DirectoryStructure
  files : List FileTemplate
  metadata : Json

/-- The differences dict built by `compare_structures`.  Python appends the
members of `keys1 - keys2` etc. to lists while iterating sets, whose
iteration order is unspecified; the well-defined content of each entry is
the set itself, so the embedding uses `Finset`s. -/
structure CompareResult where
  files_added : Finset PyStr
  files_removed : Finset PyStr
  files_modified : Finset PyStr
  dirs_added : Finset PyStr
  dirs_removed : Finset PyStr
deriving DecidableEq

/-- The dict comprehension `{f.path: f for f in files}`: for a repeated path
the later entry overwrites the earlier, so lookup returns the last
occurrence. -/
def lastLookupFT (fs : List FileTemplate) (p : PyStr) : Option FileTemplate :=
  (fs.filter (fun f => f.path == p)).getLast?

/-- `files1[path].checksum` through the comprehension dict. -/
def dictCheckFT (fs : List FileTemplate) (p : PyStr) : Option (Option PyStr) :=
  (lastLookupFT fs p).map FileTemplate.checksum

/-- structure_sync.StructureSynchronizer.compare_structures. -/
def StructureSynchronizer.compare_structures (s1 s2 : DirectoryStructure) : CompareResult :=
  let keys1 := (s1.files.map FileTemplate.path).toFinset
  let keys2 := (s2.files.map FileTemplate.path).toFinset
  { files_removed := keys1 \ keys2
    files_added := keys2 \ keys1
    files_modified := (keys1 ∩ keys2).filter
      (fun p => dictCheckFT s1.files p ≠ dictCheckFT s2.files p)
    dirs_removed := (s1.subdirs.map DirectoryStructure.name).toFinset \
      (s2.subdirs.map DirectoryStructure.name).toFinset
    dirs_added := (s2.subdirs.map DirectoryStructure.name).toFinset \
      (s1.subdirs.map DirectoryStructure.name).toFinset }

/-- `PurePosixPath(p).name`: the last path component, after dropping empty
components (repeated or trailing slashes) and `.` components; `""` when none
remain. -/
def pyPathName (p : PyStr) : PyStr :=
  (((p.splitOn '/').filter (fun c => c != [] && c != ['.'])).getLast?).getD []

/-- Python dict assignment `d[k] = v`: replace in place, else append. -/
def pyDictSet {α : Type} : List (PyStr × α) → PyStr → α → List (PyStr × α)
  | [], k, v => [(k, v)]
  | (k', v') :: rest, k, v =>
    if k' = k then (k', v) :: rest else (k', v') :: pyDictSet rest k v

/-- Python `str.replace` main loop for a nonempty pattern: non-overlapping,
left to right. -/
def pyReplaceGo (pat rep : PyStr) : PyStr → PyStr
  | [] => []
  | c :: rest =>
    if pat ≠ [] ∧ pat.isPrefixOf (c :: rest) then
      rep ++ pyReplaceGo pat rep (rest.drop (pat.length - 1))
    else
      c :: pyReplaceGo pat rep rest
termination_by s => s.length
decreasing_by
  all_goals simp only [List.length_cons, List.length_drop]
  all_goals omega

/-- Python `s.replace(pat, rep)`; an empty pattern inserts `rep` at every
boundary. -/
def pyReplace (s pat rep : PyStr) : PyStr :=
  if pat = [] then rep ++ s.foldr (fun c acc => (c :: rep) ++ acc) []
  else pyReplaceGo pat rep s

/-- `self.config.get('sync_rules', {}).get('preserve_existing', True)`. -/
def preserveExistingFlag (config : Json) : Except Exn Json := do
  let sr ← pyGet config (pys "sync_rules") (Json.obj [])
  pyGet sr (pys "preserve_existing") (Json.bool true)

/-- structure_sync.StructureSynchronizer._sync_file, on the state of the
target directory as a mapping from file name to content.  The condition
`target_file.exists() and self.config.get(...)` short-circuits, so the
config is only consulted when the file exists; otherwise every `{var}`
placeholder is substituted and the file is written. -/
def StructureSynchronizer.sync_file (config : Json) (ft : FileTemplate)
    (dirFiles : List (PyStr × PyStr)) (template_vars : List (PyStr × PyStr)) :
    Except Exn (List (PyStr × PyStr)) := do
  let name := pyPathName ft.path
  let cond ←
    if (lookupKey name dirFiles).isSome then do
      let preserve ← preserveExistingFlag config
      pure (pyTruthy preserve)
    else
      pure false
  if cond then
    pure dirFiles
  else
    let content := template_vars.foldl (fun c kv =>
      pyReplace c (Char.ofNat 123 :: kv.1 ++ [Char.ofNat 125]) kv.2) ft.content
    pure (pyDictSet dirFiles name content)

/-! ## C8: sync non-destructiveness -/

/-- C8: when a file of the same name already exists in the target directory
and the `preserve_existing` policy evaluates truthy (as it does for the
default configuration, where the key is absent and defaults to `True`),
`_sync_file` leaves the directory state — in particular that file's
content — byte-for-byte unchanged. -/
theorem c8_sync_preserves_existing (config : Json) (ft : FileTemplate)
    (dirFiles : List (PyStr × PyStr)) (template_vars : List (PyStr × PyStr))
    (existing : PyStr) (pv : Json)
    (hex : lookupKey (pyPathName ft.path) dirFiles = some existing)
    (hflag : preserveExistingFlag config = .ok pv) (htruthy : pyTruthy pv = true) :
    (StructureSynchronizer.sync_file config ft dirFiles template_vars = .ok dirFiles ∧
      lookupKey (pyPathName ft.path) dirFiles = some existing) ∧
    preserveExistingFlag (Json.obj []) = .ok (Json.bool true) := by
  refine ⟨⟨?_, hex⟩, rfl⟩
  unfold StructureSynchronizer.sync_file
  simp only [hex, Option.isSome_some, reduceIte, hflag, exOk_bind, exPure_bind, htruthy]
  rfl

/-- Witness for C8 at a concrete template, directory state and default
configuration. -/
theorem c8_sync_preserves_existing_witness :
    (StructureSynchronizer.sync_file (Json.obj []) ⟨pys "docs/readme.md", pys "new", Json.obj [],
        none, none⟩ [(pys "readme.md", pys "old")] [] = .ok [(pys "readme.md", pys "old")] ∧
      lookupKey (pyPathName (pys "docs/readme.md")) [(pys "readme.md", pys "old")] =
        some (pys "old")) ∧
    preserveExistingFlag (Json.obj []) = .ok (Json.bool true) :=
  c8_sync_preserves_existing (Json.obj [])
    ⟨pys "docs/readme.md", pys "new", Json.obj [], none, none⟩
    [(pys "readme.md", pys "old")] [] (pys "old") (Json.bool true) rfl rfl rfl

/-! ## C7: compare_structures symmetry and order-independence -/

theorem filter_path_length_le_one (fs : List FileTemplate) (p : PyStr)
    (hnd : (fs.map FileTemplate.path).Nodup) :
    (fs.filter (fun f => f.path == p)).length ≤ 1 := by
  induction fs with
  | nil => simp
  | cons f fs ih =>
    rw [List.map_cons, List.nodup_cons] at hnd
    obtain ⟨hnotin, hnd'⟩ := hnd
    rw [List.filter_cons]
    by_cases hfp : (f.path == p) = true
    · simp only [hfp, reduceIte]
      have hempty : fs.filter (fun f => f.path == p) = [] := by
        rw [List.filter_eq_nil_iff]
        intro g hg hgp
        apply hnotin
        have : g.path = p := by exact beq_iff_eq.mp hgp
        have hfpe : f.path = p := beq_iff_eq.mp hfp
        rw [← hfpe] at this
        exact this ▸ List.mem_map_of_mem FileTemplate.path hg
      rw [hempty]
      simp
    · simp only [hfp, Bool.false_eq_true, reduceIte]
      exact ih hnd'

theorem perm_eq_of_length_le_one {α : Type} {l1 l2 : List α} (h : l1.Perm l2)
    (hlen : l1.length ≤ 1) : l1 = l2 := by
  cases l1 with
  | nil => exact h.nil_eq
  | cons a t =>
    cases t with
    | nil => exact (List.perm_singleton.mp h.symm).symm
    | cons b t2 => simp at hlen

theorem lastLookupFT_perm (f1 fs : List FileTemplate) (p : PyStr) (hperm : f1.Perm fs)
    (hnd : (fs.map FileTemplate.path).Nodup) :
    lastLookupFT f1 p = lastLookupFT fs p := by
  unfold lastLookupFT
  have hpf : (fs.filter (fun f => f.path == p)).Perm (f1.filter (fun f => f.path == p)) :=
    (hperm.filter _).symm
  rw [perm_eq_of_length_le_one hpf (filter_path_length_le_one fs p hnd)]

theorem dictCheckFT_perm (f1 fs : List FileTemplate) (hperm : f1.Perm fs)
    (hnd : (fs.map FileTemplate.path).Nodup) (p : PyStr) :
    dictCheckFT f1 p = dictCheckFT fs p := by
  unfold dictCheckFT
  rw [lastLookupFT_perm f1 fs p hperm hnd]

/-- C7: `compare_structures` symmetry, and order-independence for snapshots
with duplicate-free file paths.  Comparing A to B and B to A swaps
added/removed (for files and directories) and gives identical modified sets;
and when each snapshot's file paths are pairwise distinct, permuting the
input file and subdirectory lists does not change the result.  (The
embedding is a pure function of its inputs, so neither input is mutated by
construction.) -/
theorem c7_compare_symmetry_and_order_independence (s1 s2 : DirectoryStructure) :
    ((StructureSynchronizer.compare_structures s1 s2).files_added =
      (StructureSynchronizer.compare_structures s2 s1).files_removed) ∧
    ((StructureSynchronizer.compare_structures s1 s2).files_removed =
      (StructureSynchronizer.compare_structures s2 s1).files_added) ∧
    ((StructureSynchronizer.compare_structures s1 s2).files_modified =
      (StructureSynchronizer.compare_structures s2 s1).files_modified) ∧
    ((StructureSynchronizer.compare_structures s1 s2).dirs_added =
      (StructureSynchronizer.compare_structures s2 s1).dirs_removed) ∧
    ((StructureSynchronizer.compare_structures s1 s2).dirs_removed =
      (StructureSynchronizer.compare_structures s2 s1).dirs_added) ∧
    (∀ (f1 : List FileTemplate) (d1 : List DirectoryStructure)
       (f2 : List FileTemplate) (d2 : List DirectoryStructure),
      f1.Perm s1.files → d1.Perm s1.subdirs → f2.Perm s2.files → d2.Perm s2.subdirs →
      (s1.files.map FileTemplate.path).Nodup → (s2.files.map FileTemplate.path).Nodup →
      StructureSynchronizer.compare_structures
          { s1 with files := f1, subdirs := d1 } { s2 with files := f2, subdirs := d2 } =
        StructureSynchronizer.compare_structures s1 s2) := by
  refine ⟨rfl, rfl, ?_, rfl, rfl, ?_⟩
  · unfold StructureSynchronizer.compare_structures
    simp only
    apply Finset.ext
    intro p
    simp only [Finset.mem_filter, Finset.mem_inter]
    constructor
    · rintro ⟨⟨h1, h2⟩, h3⟩
      exact ⟨⟨h2, h1⟩, Ne.symm h3⟩
    · rintro ⟨⟨h1, h2⟩, h3⟩
      exact ⟨⟨h2, h1⟩, Ne.symm h3⟩
  · intro f1 d1 f2 d2 hpf1 hpd1 hpf2 hpd2 hnd1 hnd2
    have hk1 : (f1.map FileTemplate.path).toFinset =
        (s1.files.map FileTemplate.path).toFinset :=
      List.toFinset_eq_of_perm _ _ (hpf1.map _)
    have hk2 : (f2.map FileTemplate.path).toFinset =
        (s2.files.map FileTemplate.path).toFinset :=
      List.toFinset_eq_of_perm _ _ (hpf2.map _)
    have hdn1 : (d1.map DirectoryStructure.name).toFinset =
        (s1.subdirs.map DirectoryStructure.name).toFinset :=
      List.toFinset_eq_of_perm _ _ (hpd1.map _)
    have hdn2 : (d2.map DirectoryStructure.name).toFinset =
        (s2.subdirs.map DirectoryStructure.name).toFinset :=
      List.toFinset_eq_of_perm _ _ (hpd2.map _)
    unfold StructureSynchronizer.compare_structures
    simp only
    rw [hk1, hk2, hdn1, hdn2]
    have hfilter : ((s1.files.map FileTemplate.path).toFinset ∩
          (s2.files.map FileTemplate.path).toFinset).filter
        (fun p => dictCheckFT f1 p ≠ dictCheckFT f2 p) =
        ((s1.files.map FileTemplate.path).toFinset ∩
          (s2.files.map FileTemplate.path).toFinset).filter
        (fun p => dictCheckFT s1.files p ≠ dictCheckFT s2.files p) := by
      apply Finset.filter_congr
      intro p _
      rw [dictCheckFT_perm f1 s1.files hpf1 hnd1 p, dictCheckFT_perm f2 s2.files hpf2 hnd2 p]
    rw [hfilter]

/-- A snapshot carrying two templates with the same path `f` but different
checksums (the comprehension dict keeps the last). -/
def c7A : DirectoryStructure :=
  ⟨pys "a", pys "a", [],
   [⟨pys "f", pys "c1", Json.null, some (pys "h1"), none⟩,
    ⟨pys "f", pys "c2", Json.null, some (pys "h2"), none⟩], Json.null⟩

/-- A snapshot holding one file `f` with the first of those checksums. -/
def c7B : DirectoryStructure :=
  ⟨pys "b", pys "b", [],
   [⟨pys "f", pys "c1", Json.null, some (pys "h1"), none⟩], Json.null⟩

/-- C7 counterexample: reversing the order of one input's files list changes
the result of `compare_structures` (with duplicate paths, the dict
comprehension keeps the last occurrence, so `files_modified` flips), so the
result is not independent of the order of the input file lists. -/
theorem c7_counterexample :
    StructureSynchronizer.compare_structures c7A c7B ≠
      StructureSynchronizer.compare_structures
        { c7A with files := c7A.files.reverse } c7B := by
  decide

/-- Witness for C7 at concrete snapshots: the symmetry part at `c7A`/`c7B`,
and the order-independence part at `c7B` (whose file paths are distinct)
with reversed input lists. -/
theorem c7_compare_symmetry_and_order_independence_witness :
    (StructureSynchronizer.compare_structures c7A c7B).files_added =
      (StructureSynchronizer.compare_structures c7B c7A).files_removed ∧
    StructureSynchronizer.compare_structures
        { c7B with files := c7B.files.reverse, subdirs := c7B.subdirs.reverse } c7B =
      StructureSynchronizer.compare_structures c7B c7B := by
  obtain ⟨h1, _, _, _, _, _⟩ := c7_compare_symmetry_and_order_independence c7A c7B
  obtain ⟨_, _, _, _, _, h6⟩ := c7_compare_symmetry_and_order_independence c7B c7B
  exact ⟨h1, h6 c7B.files.reverse c7B.subdirs.reverse c7B.files c7B.subdirs
    (List.reverse_perm _) (List.reverse_perm _) (List.Perm.refl _) (List.Perm.refl _)
    (by decide) (by decide)⟩

/-! ## C6: directory and file enumeration over the structure tree -/

/-- The walk of models.StructureData.has_directory over the split path:
descend through dict nodes, `False` as soon as a part is absent or the
current node is not a dict. -/
def hasDirectoryGo : List PyStr → Json → Bool
  | [], _ => true
  | part :: rest, current =>
    match current with
    | Json.obj kvs =>
      match lookupKey part kvs with
      | some v => hasDirectoryGo rest v
      | none => false
    | _ => false

/-- models.StructureData.has_directory: split on `/` and walk. -/
def StructureData.has_directory (sd : StructureData) (directory_path : PyStr) : Bool :=
  hasDirectoryGo (directory_path.splitOn '/') sd.structure_

/-- The recursive collector of models.StructureData.get_all_directories:
every key becomes a path (pre-order), recursing into dict values; the
separator is added only when the accumulated path is nonempty (Python's
`f"{path}/{key}" if path else key`). -/
def collectDirectories : List (PyStr × Json) → PyStr → List PyStr
  | [], _ => []
  | (k, v) :: rest, path =>
    let current_path := if path ≠ [] then path ++ '/' :: k else k
    current_path ::
      ((match v with
        | Json.obj kvs => collectDirectories kvs current_path
        | _ => []) ++ collectDirectories rest path)

/-- models.StructureData.get_all_directories.  On a non-dict structure the
Python code would raise AttributeError at `.items()`; the data-model
invariant makes `structure` a mapping, and the non-dict case returns `[]`
here (no claim touches it). -/
def StructureData.get_all_directories (sd : StructureData) : List PyStr :=
  match sd.structure_ with
  | Json.obj kvs => collectDirectories kvs []
  | _ => []

/-- The recursive collector of models.StructureData.get_all_files: list
values are stored under their path in the shared `files_by_dir` dict
(assignment semantics, i.e. replace-or-append), dict values are recursed
into, other values are skipped. -/
def collectFiles : List (PyStr × Json) → PyStr → List (PyStr × Json) → List (PyStr × Json)
  | [], _, store => store
  | (k, Json.arr l) :: rest, path, store =>
    collectFiles rest path
      (pyDictSet store (if path ≠ [] then path ++ '/' :: k else k) (Json.arr l))
  | (k, Json.obj kvs) :: rest, path, store =>
    collectFiles rest path
      (collectFiles kvs (if path ≠ [] then path ++ '/' :: k else k) store)
  | (_, _) :: rest, path, store => collectFiles rest path store

/-- models.StructureData.get_all_files (same non-dict caveat as above). -/
def StructureData.get_all_files (sd : StructureData) : List (PyStr × Json) :=
  match sd.structure_ with
  | Json.obj kvs => collectFiles kvs [] []
  | _ => []

/-- The leaf filenames of a structure tree, in traversal order: the elements
of every list value, recursing through dict values. -/
def leafFiles : List (PyStr × Json) → List Json
  | [] => []
  | (_, v) :: rest =>
    (match v with
     | Json.arr l => l
     | Json.obj kvs => leafFiles kvs
     | _ => []) ++ leafFiles rest

/-- The file list a stored value denotes. -/
def asFiles : Json → List Json
  | Json.arr l => l
  | _ => []

/-- The union (in order) of the per-directory file lists of a store. -/
def storeFiles (store : List (PyStr × Json)) : List Json :=
  store.foldr (fun kv acc => asFiles kv.2 ++ acc) []

mutual
/-- Well-formed structure trees for enumeration: at every dict node the keys
are pairwise distinct (Python dicts), nonempty, and contain no `/`. -/
def goodKeys : Json → Bool
  | Json.obj kvs => decide ((kvs.map Prod.fst).Nodup) && goodKeysList kvs
  | _ => true

/-- Key/value-wise part of `goodKeys`. -/
def goodKeysList : List (PyStr × Json) → Bool
  | [] => true
  | (k, v) :: rest =>
    (k != []) && !(k.contains '/') && goodKeys v && goodKeysList rest
end

/-- A chain of keys that descends through dict nodes of the tree (the last
step may land on any value). -/
def ChainValid : List (PyStr × Json) → List PyStr → Prop
  | _, [] => False
  | kvs, [k] => (lookupKey k kvs).isSome = true
  | kvs, k :: rest => ∃ kvs', lookupKey k kvs = some (Json.obj kvs') ∧ ChainValid kvs' rest

/-- The slash-joined rendering of a chain. -/
def joinChain : List PyStr → PyStr
  | [] => []
  | [k] => k
  | k :: rest => k ++ '/' :: joinChain rest

/-- A chain of keys all of which are nonempty and slash-free. -/
def goodChain (chain : List PyStr) : Prop := ∀ s ∈ chain, s ≠ [] ∧ '/' ∉ s

theorem joinChain_cons (a : PyStr) (l : List PyStr) (h : l ≠ []) :
    joinChain (a :: l) = a ++ '/' :: joinChain l := by
  cases l with
  | nil => exact absurd rfl h
  | cons b t => rfl

theorem joinChain_eq_intercalate : ∀ c : List PyStr, joinChain c = List.intercalate ['/'] c := by
  intro c
  induction c with
  | nil => rfl
  | cons a t ih =>
    cases t with
    | nil => simp [joinChain, List.intercalate]
    | cons b t2 =>
      rw [joinChain_cons a (b :: t2) (by simp), ih]
      simp [List.intercalate, List.intersperse_cons_cons]

theorem splitOn_joinChain (c : List PyStr) (hne : c ≠ [])
    (hgood : ∀ s ∈ c, '/' ∉ s) : (joinChain c).splitOn '/' = c := by
  rw [joinChain_eq_intercalate]
  exact List.splitOn_intercalate c '/' hgood hne

theorem mem_keys_of_lookupKey_isSome {k : PyStr} {kvs : List (PyStr × Json)}
    (h : (lookupKey k kvs).isSome = true) : k ∈ kvs.map Prod.fst := by
  induction kvs with
  | nil => simp [lookupKey] at h
  | cons kv rest ih =>
    obtain ⟨k2, v⟩ := kv
    simp only [lookupKey] at h
    by_cases hk : k2 = k
    · simp [hk]
    · rw [if_neg hk] at h
      simp only [List.map_cons, List.mem_cons]
      exact Or.inr (ih h)

theorem chainValid_head {kvs : List (PyStr × Json)} {k : PyStr} {rest : List PyStr}
    (h : ChainValid kvs (k :: rest)) : k ∈ kvs.map Prod.fst := by
  cases rest with
  | nil =>
    simp only [ChainValid] at h
    exact mem_keys_of_lookupKey_isSome h
  | cons b t =>
    simp only [ChainValid] at h
    obtain ⟨kvs2, hl, _⟩ := h
    exact mem_keys_of_lookupKey_isSome (by rw [hl]; rfl)

theorem chainValid_cons_of_tail {k2 : PyStr} {v2 : Json} {kvs : List (PyStr × Json)}
    {chain : List PyStr} (h : ChainValid kvs chain)
    (hfresh : k2 ∉ kvs.map Prod.fst) : ChainValid ((k2, v2) :: kvs) chain := by
  cases chain with
  | nil => simp only [ChainValid] at h
  | cons k rest =>
    have hk : ¬ (k2 = k) := fun he => hfresh (he ▸ chainValid_head h)
    cases rest with
    | nil =>
      simp only [ChainValid, lookupKey, if_neg hk] at h ⊢
      exact h
    | cons b t =>
      simp only [ChainValid] at h ⊢
      obtain ⟨kvs2, hl, hc⟩ := h
      exact ⟨kvs2, by rw [lookupKey, if_neg hk]; exact hl, hc⟩

theorem chainValid_single {k : PyStr} {v : Json} {kvs : List (PyStr × Json)}
    (hl : lookupKey k kvs = some v) : ChainValid kvs [k] := by
  simp only [ChainValid, hl, Option.isSome_some]

theorem chainValid_cons_obj {k : PyStr} {kvs kvs2 : List (PyStr × Json)}
    {chain : List PyStr} (hl : lookupKey k kvs = some (Json.obj kvs2))
    (hc : ChainValid kvs2 chain) : ChainValid kvs (k :: chain) := by
  cases chain with
  | nil => simp only [ChainValid] at hc
  | cons b t =>
    simp only [ChainValid]
    exact ⟨kvs2, hl, hc⟩

theorem hasDirectoryGo_of_chainValid : ∀ (chain : List PyStr) (kvs : List (PyStr × Json)),
    ChainValid kvs chain → hasDirectoryGo chain (Json.obj kvs) = true := by
  intro chain
  induction chain with
  | nil => intro kvs h; simp only [ChainValid] at h
  | cons k rest ih =>
    intro kvs h
    cases rest with
    | nil =>
      simp only [ChainValid] at h
      obtain ⟨v, hv⟩ := Option.isSome_iff_exists.mp h
      simp only [hasDirectoryGo, hv]
    | cons b t =>
      simp only [ChainValid] at h
      obtain ⟨kvs2, hl, hc⟩ := h
      simp only [hasDirectoryGo, hl]
      exact ih kvs2 hc

/-- Python's `f"{path}/{key}" if path else key`. -/
def pathJoin (path s : PyStr) : PyStr := if path ≠ [] then path ++ '/' :: s else s

theorem pathJoin_chain_cons {path k : PyStr} {chain : List PyStr} (hk : k ≠ [])
    (hc : chain ≠ []) :
    pathJoin (pathJoin path k) (joinChain chain) = pathJoin path (joinChain (k :: chain)) := by
  rw [joinChain_cons k chain hc]
  by_cases hp : path = []
  · simp [pathJoin, hp, hk]
  · simp [pathJoin, hp, List.append_assoc]

theorem not_mem_of_bnot_contains {k : PyStr} {c : Char}
    (h : (!(k.contains c)) = true) : c ∉ k := by
  simp only [Bool.not_eq_true', List.contains, List.elem_eq_mem, decide_eq_false_iff_not] at h
  exact h

theorem ne_nil_of_bne {k : PyStr} (h : (k != []) = true) : k ≠ [] := by
  simpa using h

theorem collectDirectories_spec :
    ∀ (kvs : List (PyStr × Json)) (path : PyStr),
      goodKeys (Json.obj kvs) = true →
      ∀ p ∈ collectDirectories kvs path,
        ∃ chain, chain ≠ [] ∧ goodChain chain ∧ ChainValid kvs chain ∧
          p = pathJoin path (joinChain chain) := by
  intro kvs path
  induction kvs, path using collectDirectories.induct with
  | case1 path =>
    intro _ p hp
    simp [collectDirectories] at hp
  | case2 k v rest path cur ihm ihr =>
    intro hg p hp
    simp only [goodKeys, goodKeysList, Bool.and_eq_true, decide_eq_true_eq] at hg
    obtain ⟨hnodup, ⟨⟨⟨hk1, hk2⟩, hgv⟩, hgrest⟩⟩ := hg
    have hkne : k ≠ [] := ne_nil_of_bne hk1
    have hkns : '/' ∉ k := not_mem_of_bnot_contains hk2
    simp only [List.map_cons, List.nodup_cons] at hnodup
    obtain ⟨hfresh, hnodup2⟩ := hnodup
    rw [collectDirectories.eq_def] at hp
    simp only [List.mem_cons, List.mem_append] at hp
    rcases hp with hpA | hpB | hpC
    · refine ⟨[k], by simp, ?_, chainValid_single (v := v) (by simp [lookupKey]), ?_⟩
      · intro s hs
        rw [List.mem_singleton] at hs
        exact hs ▸ ⟨hkne, hkns⟩
      · simpa only [joinChain, pathJoin] using hpA
    · cases v with
      | obj kvs2 =>
        obtain ⟨chain, hcne, hcgood, hcvalid, hpe⟩ := ihm hgv p hpB
        refine ⟨k :: chain, by simp, ?_, chainValid_cons_obj (by simp [lookupKey]) hcvalid, ?_⟩
        · intro s hs
          rcases List.mem_cons.mp hs with hs1 | hs2
          · exact hs1 ▸ ⟨hkne, hkns⟩
          · exact hcgood s hs2
        · rw [hpe, ← pathJoin_chain_cons hkne hcne]
          rfl
      | null => simp at hpB
      | bool b => simp at hpB
      | num n => simp at hpB
      | str s => simp at hpB
      | arr l => simp at hpB
    · have hgr : goodKeys (Json.obj rest) = true := by
        simp only [goodKeys, Bool.and_eq_true, decide_eq_true_eq]
        exact ⟨hnodup2, hgrest⟩
      obtain ⟨chain, hcne, hcgood, hcvalid, hpe⟩ := ihr hgr p hpC
      exact ⟨chain, hcne, hcgood, chainValid_cons_of_tail hcvalid hfresh, hpe⟩

/-- The contribution of one traversal, without the threaded store: the
(path, file-list) pairs that collect_files records, in traversal order. -/
def genFiles : List (PyStr × Json) → PyStr → List (PyStr × Json)
  | [], _ => []
  | (k, v) :: rest, path =>
    let current_path := if path ≠ [] then path ++ '/' :: k else k
    (match v with
     | Json.arr l => [(current_path, Json.arr l)]
     | Json.obj kvs => genFiles kvs current_path
     | _ => []) ++ genFiles rest path

/-- The key chains leading to list values of the tree. -/
def fileChains : List (PyStr × Json) → List (List PyStr)
  | [] => []
  | (k, v) :: rest =>
    (match v with
     | Json.arr _ => [[k]]
     | Json.obj kvs => (fileChains kvs).map (fun c => k :: c)
     | _ => []) ++ fileChains rest

theorem lookupKey_none_of_not_mem {α : Type} {q : PyStr} :
    ∀ {s : List (PyStr × α)}, q ∉ s.map Prod.fst → lookupKey q s = none := by
  intro s
  induction s with
  | nil => intro _; rfl
  | cons kv rest ih =>
    obtain ⟨k2, v⟩ := kv
    intro h
    simp only [List.map_cons, List.mem_cons, not_or] at h
    obtain ⟨h1, h2⟩ := h
    rw [lookupKey, if_neg (fun he => h1 he.symm)]
    exact ih h2

theorem pyDictSet_fresh {α : Type} : ∀ (store : List (PyStr × α)) (k : PyStr) (v : α),
    lookupKey k store = none → pyDictSet store k v = store ++ [(k, v)] := by
  intro store
  induction store with
  | nil => intro k v _; rfl
  | cons kv rest ih =>
    obtain ⟨k2, v2⟩ := kv
    intro k v h
    rw [lookupKey] at h
    by_cases hk : k2 = k
    · rw [if_pos hk] at h
      exact absurd h (by simp)
    · rw [if_neg hk] at h
      rw [pyDictSet, if_neg hk, ih k v h]
      rfl

theorem lookupKey_append_none {α : Type} {q : PyStr} :
    ∀ {s1 s2 : List (PyStr × α)}, lookupKey q s1 = none → lookupKey q s2 = none →
      lookupKey q (s1 ++ s2) = none := by
  intro s1
  induction s1 with
  | nil => intro s2 _ h2; exact h2
  | cons kv rest ih =>
    intro s2 h1 h2
    obtain ⟨k2, v⟩ := kv
    rw [lookupKey] at h1
    rw [List.cons_append, lookupKey]
    by_cases hk : k2 = q
    · rw [if_pos hk] at h1
      exact absurd h1 (by simp)
    · rw [if_neg hk] at h1
      rw [if_neg hk]
      exact ih h1 h2

theorem storeFiles_acc : ∀ (s : List (PyStr × Json)) (acc : List Json),
    s.foldr (fun kv acc2 => asFiles kv.2 ++ acc2) acc = storeFiles s ++ acc := by
  intro s
  induction s with
  | nil => intro acc; rfl
  | cons kv rest ih =>
    intro acc
    rw [List.foldr_cons, ih]
    show asFiles kv.2 ++ (storeFiles rest ++ acc) = (asFiles kv.2 ++ storeFiles rest) ++ acc
    rw [List.append_assoc]

theorem storeFiles_append (s1 s2 : List (PyStr × Json)) :
    storeFiles (s1 ++ s2) = storeFiles s1 ++ storeFiles s2 := by
  rw [storeFiles, List.foldr_append, storeFiles_acc]
  rfl

theorem fileChains_ne_nil : ∀ (kvs : List (PyStr × Json)), ∀ c ∈ fileChains kvs, c ≠ [] := by
  intro kvs
  induction kvs using fileChains.induct with
  | case1 => intro c hc; simp [fileChains] at hc
  | case2 k v rest ihm ihr =>
    intro c hc
    cases v with
    | arr l =>
      simp only [fileChains, List.singleton_append, List.mem_cons] at hc
      rcases hc with h | h
      · subst h; simp
      · exact ihr c h
    | obj kvs2 =>
      simp only [fileChains, List.mem_append, List.mem_map] at hc
      rcases hc with ⟨c2, _, rfl⟩ | h
      · simp
      · exact ihr c h
    | null =>
      simp only [fileChains, List.nil_append] at hc
      exact ihr c hc
    | bool b =>
      simp only [fileChains, List.nil_append] at hc
      exact ihr c hc
    | num n =>
      simp only [fileChains, List.nil_append] at hc
      exact ihr c hc
    | str s =>
      simp only [fileChains, List.nil_append] at hc
      exact ihr c hc

theorem fileChains_good : ∀ (kvs : List (PyStr × Json)),
    goodKeys (Json.obj kvs) = true → ∀ c ∈ fileChains kvs, goodChain c := by
  intro kvs
  induction kvs using fileChains.induct with
  | case1 => intro _ c hc; simp [fileChains] at hc
  | case2 k v rest ihm ihr =>
    intro hg c hc
    simp only [goodKeys, goodKeysList, Bool.and_eq_true, decide_eq_true_eq] at hg
    obtain ⟨hnodup, ⟨⟨⟨hk1, hk2⟩, hgv⟩, hgrest⟩⟩ := hg
    have hkne : k ≠ [] := ne_nil_of_bne hk1
    have hkns : '/' ∉ k := not_mem_of_bnot_contains hk2
    simp only [List.map_cons, List.nodup_cons] at hnodup
    obtain ⟨hfresh, hnodup2⟩ := hnodup
    have hgr : goodKeys (Json.obj rest) = true := by
      simp only [goodKeys, Bool.and_eq_true, decide_eq_true_eq]
      exact ⟨hnodup2, hgrest⟩
    cases v with
    | arr l =>
      simp only [fileChains, List.singleton_append, List.mem_cons] at hc
      rcases hc with h | h
      · subst h
        intro s hs
        rw [List.mem_singleton] at hs
        exact hs ▸ ⟨hkne, hkns⟩
      · exact ihr hgr c h
    | obj kvs2 =>
      simp only [fileChains, List.mem_append, List.mem_map] at hc
      rcases hc with ⟨c2, hc2, rfl⟩ | h
      · intro s hs
        rcases List.mem_cons.mp hs with hs1 | hs2
        · exact hs1 ▸ ⟨hkne, hkns⟩
        · exact ihm hgv c2 hc2 s hs2
      · exact ihr hgr c h
    | null =>
      simp only [fileChains, List.nil_append] at hc
      exact ihr hgr c hc
    | bool b =>
      simp only [fileChains, List.nil_append] at hc
      exact ihr hgr c hc
    | num n =>
      simp only [fileChains, List.nil_append] at hc
      exact ihr hgr c hc
    | str s =>
      simp only [fileChains, List.nil_append] at hc
      exact ihr hgr c hc

theorem fileChains_heads : ∀ (kvs : List (PyStr × Json)), ∀ c ∈ fileChains kvs,
    ∃ k2 t, c = k2 :: t ∧ k2 ∈ kvs.map Prod.fst := by
  intro kvs
  induction kvs using fileChains.induct with
  | case1 => intro c hc; simp [fileChains] at hc
  | case2 k v rest ihm ihr =>
    intro c hc
    have hlift : (∃ k2 t, c = k2 :: t ∧ k2 ∈ rest.map Prod.fst) →
        ∃ k2 t, c = k2 :: t ∧ k2 ∈ ((k, v) :: rest).map Prod.fst := by
      rintro ⟨k2, t, rfl, hm⟩
      exact ⟨k2, t, rfl, by simp only [List.map_cons, List.mem_cons]; exact Or.inr hm⟩
    cases v with
    | arr l =>
      simp only [fileChains, List.singleton_append, List.mem_cons] at hc
      rcases hc with h | h
      · exact ⟨k, [], h, by simp⟩
      · exact hlift (ihr c h)
    | obj kvs2 =>
      simp only [fileChains, List.mem_append, List.mem_map] at hc
      rcases hc with ⟨c2, hc2, rfl⟩ | h
      · exact ⟨k, c2, rfl, by simp⟩
      · exact hlift (ihr c h)
    | null =>
      simp only [fileChains, List.nil_append] at hc
      exact hlift (ihr c hc)
    | bool b =>
      simp only [fileChains, List.nil_append] at hc
      exact hlift (ihr c hc)
    | num n =>
      simp only [fileChains, List.nil_append] at hc
      exact hlift (ihr c hc)
    | str s =>
      simp only [fileChains, List.nil_append] at hc
      exact hlift (ihr c hc)

theorem fileChains_nodup : ∀ (kvs : List (PyStr × Json)),
    goodKeys (Json.obj kvs) = true → (fileChains kvs).Nodup := by
  intro kvs
  induction kvs using fileChains.induct with
  | case1 => intro _; simp [fileChains]
  | case2 k v rest ihm ihr =>
    intro hg
    simp only [goodKeys, goodKeysList, Bool.and_eq_true, decide_eq_true_eq] at hg
    obtain ⟨hnodup, ⟨⟨⟨hk1, hk2⟩, hgv⟩, hgrest⟩⟩ := hg
    simp only [List.map_cons, List.nodup_cons] at hnodup
    obtain ⟨hfresh, hnodup2⟩ := hnodup
    have hgr : goodKeys (Json.obj rest) = true := by
      simp only [goodKeys, Bool.and_eq_true, decide_eq_true_eq]
      exact ⟨hnodup2, hgrest⟩
    have hdisj : ∀ t : List PyStr, (k :: t) ∉ fileChains rest := by
      intro t hmem
      obtain ⟨k2, t2, he, hk2⟩ := fileChains_heads rest (k :: t) hmem
      injection he with he1 _
      exact hfresh (he1 ▸ hk2)
    cases v with
    | arr l =>
      simp only [fileChains, List.singleton_append, List.nodup_cons]
      exact ⟨hdisj [], ihr hgr⟩
    | obj kvs2 =>
      simp only [fileChains]
      rw [List.nodup_append]
      refine ⟨?_, ihr hgr, ?_⟩
      · refine List.Nodup.map ?_ (ihm hgv)
        intro a b h
        injection h
      · intro c hc1 hc2
        rw [List.mem_map] at hc1
        obtain ⟨c2, _, rfl⟩ := hc1
        exact hdisj c2 hc2
    | null =>
      simp only [fileChains, List.nil_append]
      exact ihr hgr
    | bool b =>
      simp only [fileChains, List.nil_append]
      exact ihr hgr
    | num n =>
      simp only [fileChains, List.nil_append]
      exact ihr hgr
    | str s =>
      simp only [fileChains, List.nil_append]
      exact ihr hgr

theorem pathJoin_inj {path x y : PyStr} (he : pathJoin path x = pathJoin path y) : x = y := by
  by_cases hp : path = [] <;> simpa [pathJoin, hp] using he

theorem joinChain_inj {c1 c2 : List PyStr} (h1 : c1 ≠ []) (g1 : goodChain c1)
    (h2 : c2 ≠ []) (g2 : goodChain c2) (he : joinChain c1 = joinChain c2) : c1 = c2 := by
  rw [← splitOn_joinChain c1 h1 (fun s hs => (g1 s hs).2), he,
    splitOn_joinChain c2 h2 (fun s hs => (g2 s hs).2)]

theorem genFiles_keys :
    ∀ (kvs : List (PyStr × Json)) (path : PyStr),
      goodKeys (Json.obj kvs) = true →
      (genFiles kvs path).map Prod.fst
        = (fileChains kvs).map (fun c => pathJoin path (joinChain c)) := by
  intro kvs path
  induction kvs, path using genFiles.induct with
  | case1 path => intro _; simp [genFiles, fileChains]
  | case2 k v rest path cur ihm ihr =>
    intro hg
    simp only [goodKeys, goodKeysList, Bool.and_eq_true, decide_eq_true_eq] at hg
    obtain ⟨hnodup, ⟨⟨⟨hk1, hk2⟩, hgv⟩, hgrest⟩⟩ := hg
    have hkne : k ≠ [] := ne_nil_of_bne hk1
    simp only [List.map_cons, List.nodup_cons] at hnodup
    obtain ⟨hfresh, hnodup2⟩ := hnodup
    have hgr : goodKeys (Json.obj rest) = true := by
      simp only [goodKeys, Bool.and_eq_true, decide_eq_true_eq]
      exact ⟨hnodup2, hgrest⟩
    have hcur : (if path ≠ [] then path ++ '/' :: k else k) = cur := rfl
    cases v with
    | arr l =>
      simp only [genFiles, fileChains, List.singleton_append, List.map_cons, ihr hgr]
      rw [show (joinChain [k]) = k from rfl]
      rfl
    | obj kvs2 =>
      simp only [genFiles, fileChains, List.map_append, List.map_map, hcur, ihm hgv, ihr hgr]
      have hmap : ∀ c ∈ fileChains kvs2,
          pathJoin cur (joinChain c) = pathJoin path (joinChain (k :: c)) := by
        intro c hc
        have h2 : cur = pathJoin path k := hcur.symm
        rw [h2]
        exact pathJoin_chain_cons hkne (fileChains_ne_nil kvs2 c hc)
      rw [List.map_congr_left hmap]
      simp [Function.comp]
    | null =>
      simp only [genFiles, fileChains, List.nil_append]
      exact ihr hgr
    | bool b =>
      simp only [genFiles, fileChains, List.nil_append]
      exact ihr hgr
    | num n =>
      simp only [genFiles, fileChains, List.nil_append]
      exact ihr hgr
    | str s =>
      simp only [genFiles, fileChains, List.nil_append]
      exact ihr hgr

theorem genFiles_keys_nodup (kvs : List (PyStr × Json)) (path : PyStr)
    (hg : goodKeys (Json.obj kvs) = true) : ((genFiles kvs path).map Prod.fst).Nodup := by
  rw [genFiles_keys kvs path hg]
  refine List.Nodup.map_on ?_ (fileChains_nodup kvs hg)
  intro c1 hc1 c2 hc2 he
  exact joinChain_inj (fileChains_ne_nil kvs c1 hc1) (fileChains_good kvs hg c1 hc1)
    (fileChains_ne_nil kvs c2 hc2) (fileChains_good kvs hg c2 hc2) (pathJoin_inj he)

theorem storeFiles_genFiles :
    ∀ (kvs : List (PyStr × Json)) (path : PyStr),
      storeFiles (genFiles kvs path) = leafFiles kvs := by
  intro kvs path
  induction kvs, path using genFiles.induct with
  | case1 path => simp [genFiles, leafFiles, storeFiles]
  | case2 k v rest path cur ihm ihr =>
    cases v with
    | arr l =>
      simp only [genFiles, leafFiles, List.singleton_append]
      show asFiles (Json.arr l) ++ storeFiles (genFiles rest path) = l ++ leafFiles rest
      rw [ihr]
      rfl
    | obj kvs2 =>
      have hcur : (if path ≠ [] then path ++ '/' :: k else k) = cur := rfl
      simp only [genFiles, leafFiles, storeFiles_append, hcur, ihm, ihr]
    | null =>
      simp only [genFiles, leafFiles, List.nil_append]
      exact ihr
    | bool b =>
      simp only [genFiles, leafFiles, List.nil_append]
      exact ihr
    | num n =>
      simp only [genFiles, leafFiles, List.nil_append]
      exact ihr
    | str s =>
      simp only [genFiles, leafFiles, List.nil_append]
      exact ihr

theorem collectFiles_genFiles :
    ∀ (kvs : List (PyStr × Json)) (path : PyStr) (store : List (PyStr × Json)),
      ((genFiles kvs path).map Prod.fst).Nodup →
      (∀ q ∈ (genFiles kvs path).map Prod.fst, lookupKey q store = none) →
      collectFiles kvs path store = store ++ genFiles kvs path := by
  intro kvs path store
  induction kvs, path, store using collectFiles.induct with
  | case1 path store =>
    intro _ _
    simp [collectFiles, genFiles]
  | case2 k l rest path store ihr =>
    intro hnodup hdisj
    simp only [dite_eq_ite] at ihr
    simp only [genFiles, List.singleton_append, List.map_cons, List.nodup_cons] at hnodup
    obtain ⟨hni, hnd2⟩ := hnodup
    simp only [genFiles, List.singleton_append, List.map_cons, List.mem_cons] at hdisj
    have hd0 : lookupKey (if path ≠ [] then path ++ '/' :: k else k) store = none :=
      hdisj _ (Or.inl rfl)
    have hfresh := pyDictSet_fresh store (if path ≠ [] then path ++ '/' :: k else k)
      (Json.arr l) hd0
    have hdisj2 : ∀ q ∈ (genFiles rest path).map Prod.fst,
        lookupKey q (pyDictSet store (if path ≠ [] then path ++ '/' :: k else k)
          (Json.arr l)) = none := by
      intro q hq
      rw [hfresh]
      refine lookupKey_append_none (hdisj q (Or.inr hq)) ?_
      have hne : ¬ ((if path ≠ [] then path ++ '/' :: k else k) = q) := by
        intro he
        rw [he] at hni
        exact hni hq
      rw [lookupKey, if_neg hne]
      rfl
    have ihr2 := ihr hnd2 hdisj2
    rw [hfresh] at ihr2
    simp only [collectFiles, genFiles, List.singleton_append]
    rw [hfresh, ihr2]
    simp [List.append_assoc]
  | case3 k kvs2 rest path store ihm ihr =>
    intro hnodup hdisj
    simp only [dite_eq_ite] at ihm ihr
    simp only [genFiles, List.map_append] at hnodup
    rw [List.nodup_append] at hnodup
    obtain ⟨hn1, hn2, hdisj12⟩ := hnodup
    simp only [genFiles, List.map_append, List.mem_append] at hdisj
    have hinner : collectFiles kvs2 (if path ≠ [] then path ++ '/' :: k else k) store
        = store ++ genFiles kvs2 (if path ≠ [] then path ++ '/' :: k else k) :=
      ihm hn1 (fun q hq => hdisj q (Or.inl hq))
    have hdisj2 : ∀ q ∈ (genFiles rest path).map Prod.fst,
        lookupKey q (collectFiles kvs2 (if path ≠ [] then path ++ '/' :: k else k)
          store) = none := by
      intro q hq
      rw [hinner]
      refine lookupKey_append_none (hdisj q (Or.inr hq)) ?_
      exact lookupKey_none_of_not_mem (fun hmem => hdisj12 hmem hq)
    have ihr2 := ihr hn2 hdisj2
    rw [hinner] at ihr2
    simp only [collectFiles, genFiles]
    rw [hinner, ihr2, List.append_assoc]
  | case4 k v rest path store hna hno ihr =>
    intro hnodup hdisj
    cases v with
    | arr l => exact absurd rfl (hna l)
    | obj kvs2 => exact absurd rfl (hno kvs2)
    | null =>
      simp only [genFiles, List.nil_append] at hnodup hdisj
      simp only [collectFiles, genFiles, List.nil_append]
      exact ihr hnodup hdisj
    | bool b =>
      simp only [genFiles, List.nil_append] at hnodup hdisj
      simp only [collectFiles, genFiles, List.nil_append]
      exact ihr hnodup hdisj
    | num n =>
      simp only [genFiles, List.nil_append] at hnodup hdisj
      simp only [collectFiles, genFiles, List.nil_append]
      exact ihr hnodup hdisj
    | str s =>
      simp only [genFiles, List.nil_append] at hnodup hdisj
      simp only [collectFiles, genFiles, List.nil_append]
      exact ihr hnodup hdisj

/-- A StructureData whose structure tree has an empty dict key. -/
def c6sd : StructureData :=
  ⟨Json.str (pys "bad-keys"), Json.str (pys "user"), Json.null,
   Json.str (pys "2.0.0"), Json.str (pys "2.0.0"),
   Json.obj [([], Json.obj [(pys "x", Json.arr [])])],
   Json.null, Json.null, Json.null, Json.arr []⟩

/-- C6 counterexample: with an empty dict key, `get_all_directories` returns
the path `"x"` (the falsy accumulated path drops the separator), but
`has_directory "x"` walks `["x"]` from the root, where only the empty key
exists, and returns False.  So a path returned by `get_all_directories` is
not confirmed by `has_directory` on the same tree. -/
theorem c6_counterexample :
    pys "x" ∈ c6sd.get_all_directories ∧ c6sd.has_directory (pys "x") = false := by
  constructor
  · simp [StructureData.get_all_directories, c6sd, collectDirectories]
  · decide

/-- **C6** (corrected): directory enumeration completeness holds on structure
trees whose dict keys are everywhere nonempty, slash-free and pairwise
distinct: every path returned by `get_all_directories` is then confirmed by
`has_directory` on the same StructureData, and concatenating the
per-directory file lists of `get_all_files` recovers exactly the leaf
filenames of the tree, in traversal order (each leaf exactly once).  For
trees violating the key conditions the original claim fails
(`c6_counterexample`). -/
theorem c6_enumeration_complete (sd : StructureData) (kvs : List (PyStr × Json))
    (hs : sd.structure_ = Json.obj kvs) (hg : goodKeys (Json.obj kvs) = true) :
    (∀ p ∈ sd.get_all_directories, sd.has_directory p = true) ∧
    storeFiles sd.get_all_files = leafFiles kvs := by
  constructor
  · intro p hp
    simp only [StructureData.get_all_directories, hs] at hp
    obtain ⟨chain, hcne, hcgood, hcvalid, hpe⟩ := collectDirectories_spec kvs [] hg p hp
    simp only [StructureData.has_directory, hs]
    have hsplit : p.splitOn '/' = chain := by
      rw [hpe]
      rw [show pathJoin [] (joinChain chain) = joinChain chain from rfl]
      exact splitOn_joinChain chain hcne (fun s hs2 => (hcgood s hs2).2)
    rw [hsplit]
    exact hasDirectoryGo_of_chainValid chain kvs hcvalid
  · simp only [StructureData.get_all_files, hs]
    rw [collectFiles_genFiles kvs [] [] (genFiles_keys_nodup kvs [] hg)
      (fun q hq => rfl)]
    rw [List.nil_append]
    exact storeFiles_genFiles kvs []

/-- A well-formed two-level structure tree: two top-level directories, one
nested directory, three leaf files. -/
def c6kvs : List (PyStr × Json) :=
  [(pys "docs", Json.obj [(pys "api", Json.arr [Json.str (pys "index.md")])]),
   (pys "src", Json.arr [Json.str (pys "main.py"), Json.str (pys "util.py")])]

/-- A StructureData carrying `c6kvs` as its structure tree. -/
def c6w : StructureData :=
  ⟨Json.str (pys "demo-project"), Json.str (pys "demo-user"), Json.null,
   Json.str (pys "2.0.0"), Json.str (pys "2.0.0"), Json.obj c6kvs,
   Json.null, Json.null, Json.null, Json.arr []⟩

/-- Witness for C6's amended theorem at `c6w`. -/
theorem c6_enumeration_complete_witness :
    (∀ p ∈ c6w.get_all_directories, c6w.has_directory p = true) ∧
    storeFiles c6w.get_all_files = leafFiles c6kvs :=
  c6_enumeration_complete c6w c6kvs rfl
    (by simp only [c6kvs, goodKeys, goodKeysList]; decide)
